import Mathlib

/-!
Shallow embedding of the rust-dwarf library (DWARF 2-4 reader/writer) and
proofs about it.  Byte streams are modelled as `List Nat` with each element a
byte value; readers are functions from a byte list to `Except ReadError
(value × remaining bytes)`, mirroring the Rust `&mut &[u8]` convention.
Machine integers are modelled as `Nat`/`Int` with explicit `% 2^w` where the
Rust code can wrap or truncate.
-/

namespace Dwarf

/-- Read-side error taxonomy (src/src/read.rs `ReadError` and
src/src/leb128.rs `Error`), with the LEB128 `Overflow` folded in the way
`From<leb128::Error> for ReadError` does not distinguish here; `Eof` is the
end-of-buffer error that the byteorder-backed primitives produce. -/
inductive ReadError
  | Eof
  | Invalid
  | Unsupported
  | Overflow
  deriving DecidableEq, Repr

/-- Write-side error taxonomy (src/src/write.rs `WriteError`); sinks are
in-memory vectors, so the `Io` variant cannot arise in the model. -/
inductive WriteError
  | Invalid
  | Unsupported
  deriving DecidableEq, Repr

/-- Result of a reader: the parsed value and the remaining input. -/
abbrev RRes (α : Type) := Except ReadError (α × List Nat)

namespace leb128

/-- Loop body of src/src/leb128.rs `read_u64`: `result` accumulates
`(byte & 0x7f) << shift` by bitwise or; at `shift == 63` a terminator byte
other than 0x00/0x01 would overflow 64 bits. -/
def read_u64_go : List Nat → Nat → Nat → RRes Nat
  | [], _, _ => .error .Eof
  | byte :: r, shift, result =>
    if shift = 63 ∧ byte ≠ 0x00 ∧ byte ≠ 0x01 then
      .error .Overflow
    else
      let result := result ||| ((byte &&& 0x7f) <<< shift)
      if byte &&& 0x80 = 0 then
        .ok (result, r)
      else
        read_u64_go r (shift + 7) result

/-- src/src/leb128.rs `read_u64`. -/
def read_u64 (r : List Nat) : RRes Nat :=
  read_u64_go r 0 0

/-- Two's-complement reinterpretation of a 64-bit pattern as a signed value,
the result type of `read_i64` (`result` there is an `i64`). -/
def asInt64 (n : Nat) : Int :=
  if n < 2 ^ 63 then (n : Int) else (n : Int) - 2 ^ 64

/-- Loop body of src/src/leb128.rs `read_i64`: the accumulator is the 64-bit
two's-complement pattern of the Rust `i64` (shifted-in bits above bit 63 are
discarded, hence the `% 2^64`); on a terminator with bit 6 set and
`shift < 64` the pattern is or-ed with `!0 << shift` (sign extension). -/
def read_i64_go : List Nat → Nat → Nat → RRes Int
  | [], _, _ => .error .Eof
  | byte :: r, shift, result =>
    if shift = 63 ∧ byte ≠ 0x00 ∧ byte ≠ 0x7f then
      .error .Overflow
    else
      let result := result ||| (((byte &&& 0x7f) <<< shift) % 2 ^ 64)
      let shift := shift + 7
      if byte &&& 0x80 = 0 then
        let result :=
          if shift < 64 ∧ byte &&& 0x40 ≠ 0 then
            result ||| (((2 ^ 64 - 1) <<< shift) % 2 ^ 64)
          else
            result
        .ok (asInt64 result, r)
      else
        read_i64_go r shift result

/-- src/src/leb128.rs `read_i64`. -/
def read_i64 (r : List Nat) : RRes Int :=
  read_i64_go r 0 0

/-- src/src/leb128.rs `read_u16`: a `read_u64` whose value must fit in 16
bits, otherwise `Overflow`. -/
def read_u16 (r : List Nat) : RRes Nat :=
  match read_u64 r with
  | .error e => .error e
  | .ok (val, r) =>
    if val > 0xffff then .error .Overflow else .ok (val, r)

/-- src/src/leb128.rs `write_u64`: emit 7 bits per byte, low first, setting
the continuation bit 0x80 while the remaining value is nonzero. -/
def write_u64 (value : Nat) : List Nat :=
  let byte := value &&& 0x7f
  if value >>> 7 = 0 then
    [byte]
  else
    (byte ||| 0x80) :: write_u64 (value >>> 7)
  termination_by value
  decreasing_by
    simp only [Nat.shiftRight_eq_div_pow] at *
    omega

/-- For a 7-bit byte, masking with 0x40 tests whether the value is at
least 64 (bit 6). -/
lemma and_sixtyfour_of_lt (b : Nat) (hb : b < 128) : (b &&& 0x40 ≠ 0) ↔ 64 ≤ b := by
  revert hb
  revert b
  decide

/-- The loop of `write_i64` terminates: unless the stop condition holds, the
arithmetic shift `value >> 7` strictly shrinks `|value|`. -/
lemma write_i64_dec (value : Int)
    (h : ¬((value / 128 = 0 ∧ ¬((value % 128).toNat &&& 0x40 ≠ 0)) ∨
           (value / 128 = -1 ∧ ((value % 128).toNat &&& 0x40 ≠ 0)))) :
    (value / 128).natAbs < value.natAbs := by
  have hlt : (value % 128).toNat < 128 := by omega
  have hs := and_sixtyfour_of_lt ((value % 128).toNat) hlt
  rw [hs] at h
  omega

/-- src/src/leb128.rs `write_i64`: emit 7 bits per byte of the
two's-complement value, stopping once the remaining value is the stable sign
extension (0 with sign bit clear, or -1 with sign bit set).  `value >> 7` on
an `i64` is an arithmetic shift, i.e. flooring division by 128. -/
def write_i64 (value : Int) : List Nat :=
  let byte := (value % 128).toNat
  let sign := byte &&& 0x40 ≠ 0
  let value' := value / 128
  if (value' = 0 ∧ ¬sign) ∨ (value' = -1 ∧ sign) then
    [byte]
  else
    (byte ||| 0x80) :: write_i64 value'
  termination_by value.natAbs
  decreasing_by
    exact write_i64_dec value (by assumption)

/-- src/src/leb128.rs `write_u16`. -/
def write_u16 (value : Nat) : List Nat :=
  write_u64 value

/-! Round-trip lemmas for the LEB128 codec. -/

/-- Or-ing a shifted value into an accumulator whose bits lie below the shift
is plain addition. -/
lemma lor_shiftLeft_eq_add {a : Nat} (b n : Nat) (h : a < 2 ^ n) :
    a ||| (b <<< n) = a + b <<< n := by
  rw [Nat.shiftLeft_eq, Nat.lor_comm, Nat.mul_comm, ← Nat.mul_add_lt_is_or h]
  ring

lemma and_7f_eq_mod (v : Nat) : v &&& 0x7f = v % 128 := by
  have h : (0x7f : Nat) = 2 ^ 7 - 1 := by norm_num
  rw [h, Nat.and_pow_two_sub_one_eq_mod]

lemma and_80_eq_zero {v : Nat} (h : v < 128) : v &&& 0x80 = 0 := by
  have h80 : (0x80 : Nat) = 2 ^ 7 := by norm_num
  rw [h80, Nat.and_two_pow, Nat.testBit_lt_two_pow h]
  simp

lemma or_80_and_80 (v : Nat) : (v ||| 0x80) &&& 0x80 ≠ 0 := by
  intro h
  have h7 := congrArg (fun n => Nat.testBit n 7) h
  have ht : Nat.testBit 128 7 = true := by decide
  simp [ht] at h7

lemma or_80_and_7f (v : Nat) : (v ||| 0x80) &&& 0x7f = v &&& 0x7f := by
  rw [Nat.and_distrib_right]
  have h0 : (0x80 : Nat) &&& 0x7f = 0 := by decide
  rw [h0, Nat.or_zero]

lemma and_7f_and_7f (v : Nat) : (v &&& 0x7f) &&& 0x7f = v % 128 := by
  rw [Nat.and_assoc, Nat.and_self, and_7f_eq_mod]

/-- Composing `read_u64_go` with `write_u64`: each 7-bit group lands at its
shift, so a value below the remaining width round-trips, extending the
accumulator. -/
lemma read_u64_go_write (v : Nat) :
    ∀ k result (rest : List Nat), k ≤ 9 → v < 2 ^ (64 - 7 * k) →
      result < 2 ^ (7 * k) →
      read_u64_go (write_u64 v ++ rest) (7 * k) result =
        .ok (result + v * 2 ^ (7 * k), rest) := by
  induction v using Nat.strong_induction_on with
  | _ v ih =>
    intro k result rest hk hv hres
    have hdiv : v >>> 7 = v / 128 := by
      rw [Nat.shiftRight_eq_div_pow]
    rw [write_u64]
    by_cases hsmall : v >>> 7 = 0
    · have hvlt : v < 128 := by
        rw [hdiv] at hsmall
        omega
      rw [if_pos hsmall, List.singleton_append, read_u64_go]
      have hguard : ¬(7 * k = 63 ∧ v &&& 0x7f ≠ 0x00 ∧ v &&& 0x7f ≠ 0x01) := by
        rcases Nat.lt_or_ge k 9 with h9 | h9
        · intro hcon
          omega
        · have hk9 : k = 9 := le_antisymm hk h9
          subst hk9
          have hv2 : v < 2 := by
            norm_num at hv
            exact hv
          rw [and_7f_eq_mod, Nat.mod_eq_of_lt hvlt]
          intro hcon
          omega
      rw [if_neg hguard]
      dsimp only
      have hterm : (v &&& 0x7f) &&& 0x80 = 0 :=
        and_80_eq_zero (lt_of_le_of_lt Nat.and_le_left hvlt)
      rw [if_pos hterm, and_7f_and_7f, Nat.mod_eq_of_lt hvlt,
        lor_shiftLeft_eq_add v (7 * k) hres, Nat.shiftLeft_eq]
    · have hvge : 128 ≤ v := by
        rw [hdiv] at hsmall
        omega
      have hk8 : k ≤ 8 := by
        by_contra hgt
        have hk9 : k = 9 := by omega
        subst hk9
        norm_num at hv
        omega
      rw [if_neg hsmall, List.cons_append, read_u64_go]
      have hguard : ¬(7 * k = 63 ∧ ((v &&& 0x7f) ||| 0x80) ≠ 0x00 ∧
          ((v &&& 0x7f) ||| 0x80) ≠ 0x01) := by
        intro hcon
        omega
      rw [if_neg hguard]
      dsimp only
      rw [if_neg (or_80_and_80 (v &&& 0x7f)), or_80_and_7f, and_7f_and_7f]
      have hmodlt : v % 128 < 128 := Nat.mod_lt _ (by norm_num)
      rw [lor_shiftLeft_eq_add (v % 128) (7 * k) hres, Nat.shiftLeft_eq,
        show 7 * k + 7 = 7 * (k + 1) by ring]
      have hlt2 : v >>> 7 < 2 ^ (64 - 7 * (k + 1)) := by
        rw [hdiv]
        rw [Nat.div_lt_iff_lt_mul (by norm_num : (0:Nat) < 128)]
        calc v < 2 ^ (64 - 7 * k) := hv
        _ = 2 ^ (64 - 7 * (k + 1)) * 128 := by
              rw [show (128 : Nat) = 2 ^ 7 by norm_num, ← pow_add]
              congr 1
              omega
      have hreslt : result + v % 128 * 2 ^ (7 * k) < 2 ^ (7 * (k + 1)) := by
        have h1 : v % 128 * 2 ^ (7 * k) ≤ 127 * 2 ^ (7 * k) :=
          Nat.mul_le_mul_right _ (Nat.le_of_lt_succ hmodlt)
        have h2 : 2 ^ (7 * (k + 1)) = 128 * 2 ^ (7 * k) := by
          rw [show 7 * (k + 1) = 7 + 7 * k by ring, pow_add]
          norm_num
        omega
      rw [ih (v >>> 7) (by rw [hdiv]; omega) (k + 1) _ rest (by omega) hlt2
        hreslt]
      congr 2
      have hsplit : v % 128 * 2 ^ (7 * k) + v >>> 7 * 2 ^ (7 * (k + 1)) =
          v * 2 ^ (7 * k) := by
        rw [hdiv, show 7 * (k + 1) = 7 * k + 7 by ring, pow_add]
        have : v % 128 * 2 ^ (7 * k) + v / 128 * (2 ^ (7 * k) * 2 ^ 7) =
            (v % 128 + 128 * (v / 128)) * 2 ^ (7 * k) := by
          norm_num
          ring
        rw [this, Nat.mod_add_div]
      omega

/-- `read_u64` of `write_u64 x` recovers `x` and consumes exactly the
encoding. -/
lemma read_u64_write_u64 (x : Nat) (rest : List Nat) (hx : x < 2 ^ 64) :
    read_u64 (write_u64 x ++ rest) = .ok (x, rest) := by
  have := read_u64_go_write x 0 0 rest (by norm_num) (by simpa using hx)
    (by norm_num)
  simpa using this

/-- The all-ones pattern shifted left by `s` and truncated to 64 bits is the
mask of bits `s..63`. -/
lemma ones_shiftLeft_mod (s : Nat) (h : s ≤ 64) :
    ((2 ^ 64 - 1) <<< s) % 2 ^ 64 = 2 ^ 64 - 2 ^ s := by
  rw [Nat.shiftLeft_eq]
  have h1 : (2:Nat) ^ s ≤ 2 ^ 64 := Nat.pow_le_pow_right (by norm_num) h
  have h2 : (1:Nat) ≤ 2 ^ s := Nat.one_le_two_pow
  have key : (2 ^ 64 - 1) * 2 ^ s = (2 ^ 64 - 2 ^ s) + (2 ^ s - 1) * 2 ^ 64 := by
    zify [h1, h2, Nat.one_le_two_pow]
    ring
  rw [key, Nat.add_mul_mod_self_right, Nat.mod_eq_of_lt (by omega)]

/-- Splitting an integer's residue modulo `2^n` into its low 7 bits and the
residue of its arithmetic shift. -/
lemma emod_two_pow_split (x : Int) (n : Nat) (hn : 7 ≤ n) :
    x % (2 ^ n : Int) = 128 * (x / 128 % (2 ^ (n - 7) : Int)) + x % 128 := by
  have hpow : (2 : Int) ^ n = 2 ^ (n - 7) * 128 := by
    rw [show (128 : Int) = 2 ^ 7 by norm_num, ← pow_add]
    congr 1
    omega
  have hA : (0 : Int) < 2 ^ (n - 7) := by positivity
  have hq := Int.ediv_add_emod x 128
  have hq2 := Int.ediv_add_emod (x / 128) (2 ^ (n - 7) : Int)
  have hr1 : (0 : Int) ≤ x % 128 := Int.emod_nonneg x (by norm_num)
  have hr1' : x % 128 < 128 := Int.emod_lt_of_pos x (by norm_num)
  have hr2 : (0 : Int) ≤ x / 128 % (2 ^ (n - 7) : Int) := Int.emod_nonneg _ (by omega)
  have hr2' : x / 128 % (2 ^ (n - 7) : Int) < 2 ^ (n - 7) := Int.emod_lt_of_pos _ hA
  have hx : x = (128 * (x / 128 % (2 ^ (n - 7) : Int)) + x % 128) +
      (2 ^ n : Int) * (x / 128 / (2 ^ (n - 7) : Int)) := by
    rw [hpow]
    nlinarith [hq, hq2]
  conv_lhs => rw [hx]
  rw [Int.add_mul_emod_self_left, Int.emod_eq_of_lt (by omega) (by nlinarith)]

/-- `asInt64` undoes the two's-complement pattern of an in-range `i64`. -/
lemma asInt64_emod (x : Int) (hlo : -(2 ^ 63) ≤ x) (hhi : x < 2 ^ 63) :
    asInt64 ((x % (2 ^ 64 : Int)).toNat) = x := by
  rw [asInt64]
  have h64 : (2 : Int) ^ 64 = 18446744073709551616 := by norm_num
  have h63 : (2 : Int) ^ 63 = 9223372036854775808 := by norm_num
  have h63n : (2 : Nat) ^ 63 = 9223372036854775808 := by norm_num
  rw [h64] at *
  rw [h63] at *
  split <;> rename_i hsplit <;> rw [h63n] at hsplit <;> omega

lemma lor_mul_pow_eq_add {a : Nat} (b n : Nat) (h : a < 2 ^ n) :
    a ||| (b * 2 ^ n) = a + b * 2 ^ n := by
  have := lor_shiftLeft_eq_add b n h
  rwa [Nat.shiftLeft_eq] at this

/-- Terminating byte of `write_i64` as seen by `read_i64_go`: the final
7-bit group plus, when the sign bit is set and fits, the sign extension,
reconstruct the two's-complement pattern. -/
lemma read_i64_go_stop (x : Int) (k result : Nat) (rest : List Nat)
    (hk : k ≤ 9)
    (hlo : -(2 ^ (63 - 7 * k) : Int) ≤ x) (hhi : x < 2 ^ (63 - 7 * k))
    (hres : result < 2 ^ (7 * k))
    (hstop : (x / 128 = 0 ∧ ¬((x % 128).toNat &&& 0x40 ≠ 0)) ∨
             (x / 128 = -1 ∧ ((x % 128).toNat &&& 0x40 ≠ 0))) :
    read_i64_go ((x % 128).toNat :: rest) (7 * k) result =
      .ok (asInt64 (result + (x % (2 ^ (64 - 7 * k) : Int)).toNat * 2 ^ (7 * k)),
        rest) := by
  set byte := (x % 128).toNat with hbyte
  have hblt : byte < 128 := by omega
  have hsign := and_sixtyfour_of_lt byte hblt
  have hb7 : byte &&& 0x7f = byte := by
    rw [and_7f_eq_mod, Nat.mod_eq_of_lt hblt]
  have hb80 : byte &&& 0x80 = 0 := and_80_eq_zero hblt
  have hk9 : k = 9 → x = 0 ∨ x = -1 := by
    intro h9
    subst h9
    norm_num at hlo hhi
    omega
  rw [read_i64_go]
  have hguard : ¬(7 * k = 63 ∧ byte ≠ 0x00 ∧ byte ≠ 0x7f) := by
    rcases Nat.lt_or_ge k 9 with h9 | h9
    · intro hcon
      omega
    · have h9' : k = 9 := le_antisymm hk h9
      rcases hk9 h9' with h0 | h1 <;> intro hcon <;> omega
  rw [if_neg hguard]
  dsimp only
  rw [if_pos hb80, hb7]
  rcases hstop with ⟨hdiv0, hnosign⟩ | ⟨hdivm1, hyessign⟩
  · -- remaining value is in [0, 64): no sign extension needed
    have hb64 : byte < 64 := by
      have := fun h => hnosign (hsign.mpr h)
      omega
    have hxb : x = (byte : Int) := by omega
    have hext : ¬(7 * k + 7 < 64 ∧ byte &&& 0x40 ≠ 0) := fun hcon =>
      hnosign hcon.2
    rw [if_neg hext]
    have hbyte9 : k = 9 → byte = 0 := by
      intro h9
      rcases hk9 h9 with h0 | h1 <;> omega
    have hfit : byte * 2 ^ (7 * k) < 2 ^ 64 := by
      rcases Nat.lt_or_ge k 9 with h9 | h9
      · calc byte * 2 ^ (7 * k) < 64 * 2 ^ (7 * k) :=
              mul_lt_mul_of_pos_right hb64 (by positivity)
        _ = 2 ^ (7 * k + 6) := by rw [pow_add]; ring
        _ < 2 ^ 64 := Nat.pow_lt_pow_right (by norm_num) (by omega)
      · rw [hbyte9 (le_antisymm hk h9)]
        simp
    rw [Nat.shiftLeft_eq, Nat.mod_eq_of_lt hfit,
      lor_mul_pow_eq_add byte (7 * k) hres]
    have hval : (x % (2 ^ (64 - 7 * k) : Int)).toNat = byte := by
      have hn : (byte : Int) < 2 ^ (64 - 7 * k) := by
        rcases Nat.lt_or_ge k 9 with h9 | h9
        · have h64 : ((64 : Int)) ≤ 2 ^ (64 - 7 * k) := by
            calc ((64 : Int)) = 2 ^ 6 := by norm_num
            _ ≤ 2 ^ (64 - 7 * k) := by
                  apply pow_le_pow_right₀ (by norm_num)
                  omega
          omega
        · rw [hbyte9 (le_antisymm hk h9)]
          positivity
      rw [hxb, Int.emod_eq_of_lt (by positivity) hn]
      omega
    rw [hval]
  · -- remaining value is -1: the byte carries a set sign bit
    have hb64 : 64 ≤ byte := hsign.mp hyessign
    have hxb : x = (byte : Int) - 128 := by omega
    rcases Nat.lt_or_ge k 9 with hklt | hkge
    · -- sign extension applies
      have hext : 7 * k + 7 < 64 ∧ byte &&& 0x40 ≠ 0 := ⟨by omega, hyessign⟩
      rw [if_pos hext]
      have hfit : byte * 2 ^ (7 * k) < 2 ^ (7 * k + 7) := by
        rw [pow_add]
        calc byte * 2 ^ (7 * k) < 128 * 2 ^ (7 * k) :=
              mul_lt_mul_of_pos_right hblt (by positivity)
        _ = 2 ^ (7 * k) * 2 ^ 7 := by ring
      have hfit64 : byte * 2 ^ (7 * k) < 2 ^ 64 :=
        lt_of_lt_of_le hfit (Nat.pow_le_pow_right (by norm_num) (by omega))
      rw [Nat.shiftLeft_eq, Nat.mod_eq_of_lt hfit64,
        lor_mul_pow_eq_add byte (7 * k) hres,
        ones_shiftLeft_mod (7 * k + 7) (by omega)]
      have hresb : result + byte * 2 ^ (7 * k) < 2 ^ (7 * k + 7) := by
        have h127 : byte * 2 ^ (7 * k) ≤ 127 * 2 ^ (7 * k) :=
          Nat.mul_le_mul_right _ (by omega)
        have h128 : 2 ^ (7 * k) + 127 * 2 ^ (7 * k) = 2 ^ (7 * k + 7) := by
          rw [pow_add]
          ring
        omega
      have hmask : 2 ^ 64 - 2 ^ (7 * k + 7) =
          (2 ^ (64 - (7 * k + 7)) - 1) * 2 ^ (7 * k + 7) := by
        rw [Nat.sub_one_mul, ← pow_add]
        congr 2
        omega
      rw [hmask]
      rw [lor_mul_pow_eq_add (2 ^ (64 - (7 * k + 7)) - 1) (7 * k + 7) hresb]
      rw [← hmask]
      -- identify the two's-complement pattern of a negative remainder
      have hpow256 : (256 : Int) ≤ 2 ^ (64 - 7 * k) := by
        calc (256 : Int) = 2 ^ 8 := by norm_num
        _ ≤ 2 ^ (64 - 7 * k) := by
              apply pow_le_pow_right₀ (by norm_num)
              omega
      have hemod : x % (2 ^ (64 - 7 * k) : Int) = (byte : Int) - 128 +
          2 ^ (64 - 7 * k) := by
        have heq : x = ((byte : Int) - 128 + 2 ^ (64 - 7 * k)) +
            (2 ^ (64 - 7 * k) : Int) * (-1) := by
          rw [hxb]
          ring
        conv_lhs => rw [heq]
        rw [Int.add_mul_emod_self_left,
          Int.emod_eq_of_lt (by omega) (by omega)]
      have hcast : ((2 : Int) ^ (64 - 7 * k)) = ((2 ^ (64 - 7 * k) : Nat) : Int) := by
        push_cast
        ring
      have htn : ((byte : Int) - 128 + 2 ^ (64 - 7 * k)).toNat =
          byte + 2 ^ (64 - 7 * k) - 128 := by
        rw [hcast] at hpow256 ⊢
        omega
      have hNA : 2 ^ (64 - 7 * k) * 2 ^ (7 * k) = 2 ^ 64 := by
        rw [← pow_add]
        congr 1
        omega
      have h128A : (128 : Nat) * 2 ^ (7 * k) = 2 ^ (7 * k + 7) := by
        rw [pow_add]
        ring
      have expand : (byte + 2 ^ (64 - 7 * k) - 128) * 2 ^ (7 * k) =
          byte * 2 ^ (7 * k) + 2 ^ 64 - 2 ^ (7 * k + 7) := by
        rw [Nat.sub_mul, Nat.add_mul, hNA, h128A]
      have hle : 2 ^ (7 * k + 7) ≤ 2 ^ 64 :=
        Nat.pow_le_pow_right (by norm_num) (by omega)
      have harg : result + byte * 2 ^ (7 * k) + (2 ^ 64 - 2 ^ (7 * k + 7)) =
          result + (x % (2 ^ (64 - 7 * k) : Int)).toNat * 2 ^ (7 * k) := by
        rw [hemod, htn, expand]
        omega
      rw [harg]
    · -- shift 63: the byte is 0x7f and bit 63 is the whole contribution
      have h9' : k = 9 := le_antisymm hk hkge
      subst h9'
      have hxm1 : x = -1 := by
        rcases hk9 rfl with h0 | h1 <;> omega
      have hb127 : byte = 127 := by omega
      have hext : ¬(7 * 9 + 7 < 64 ∧ byte &&& 0x40 ≠ 0) := by
        intro hcon
        omega
      rw [if_neg hext, hb127, hxm1]
      have hshift : ((127 <<< (7 * 9)) % 2 ^ 64 : Nat) = 1 * 2 ^ (7 * 9) := by
        norm_num [Nat.shiftLeft_eq]
      rw [hshift, lor_mul_pow_eq_add 1 (7 * 9) hres]
      have hval : (((-1 : Int)) % (2 ^ (64 - 7 * 9) : Int)).toNat = 1 := by
        norm_num
      rw [hval]

/-- Composing `read_i64_go` with `write_i64` (strong induction on `|x|`):
each 7-bit group of the two's-complement pattern lands at its shift. -/
lemma read_i64_go_write (n : Nat) : ∀ x : Int, x.natAbs ≤ n →
    ∀ k result (rest : List Nat), k ≤ 9 →
      -(2 ^ (63 - 7 * k) : Int) ≤ x → x < 2 ^ (63 - 7 * k) →
      result < 2 ^ (7 * k) →
      read_i64_go (write_i64 x ++ rest) (7 * k) result =
        .ok (asInt64 (result + (x % (2 ^ (64 - 7 * k) : Int)).toNat * 2 ^ (7 * k)),
          rest) := by
  induction n with
  | zero =>
    intro x hx k result rest hk hlo hhi hres
    have hx0 : x = 0 := by omega
    subst hx0
    have hstop0 : ((0:Int) / 128 = 0 ∧ ¬(((0:Int) % 128).toNat &&& 0x40 ≠ 0)) ∨
        ((0:Int) / 128 = -1 ∧ (((0:Int) % 128).toNat &&& 0x40 ≠ 0)) :=
      Or.inl ⟨by decide, by decide⟩
    rw [write_i64]
    rw [if_pos hstop0, List.singleton_append]
    exact read_i64_go_stop 0 k result rest hk hlo hhi hres hstop0
  | succ n ih =>
    intro x hx k result rest hk hlo hhi hres
    rw [write_i64]
    by_cases hstop : (x / 128 = 0 ∧ ¬((x % 128).toNat &&& 0x40 ≠ 0)) ∨
        (x / 128 = -1 ∧ ((x % 128).toNat &&& 0x40 ≠ 0))
    · rw [if_pos hstop, List.singleton_append]
      exact read_i64_go_stop x k result rest hk hlo hhi hres hstop
    · rw [if_neg hstop, List.cons_append, read_i64_go]
      have hk8 : k ≤ 8 := by
        rcases Nat.lt_or_ge k 9 with h9 | h9
        · omega
        · exfalso
          have h9' : k = 9 := le_antisymm hk h9
          subst h9'
          norm_num at hlo hhi
          have hx01 : x = 0 ∨ x = -1 := by omega
          rcases hx01 with rfl | rfl
          · exact hstop (Or.inl ⟨by decide, by decide⟩)
          · exact hstop (Or.inr ⟨by decide, by decide⟩)
      set byte := (x % 128).toNat with hbyte
      have hblt : byte < 128 := by omega
      have hguard : ¬(7 * k = 63 ∧ (byte ||| 0x80) ≠ 0x00 ∧
          (byte ||| 0x80) ≠ 0x7f) := by
        intro hcon
        omega
      rw [if_neg hguard]
      dsimp only
      rw [if_neg (or_80_and_80 byte), or_80_and_7f, and_7f_eq_mod,
        Nat.mod_eq_of_lt hblt]
      have hfit64 : byte * 2 ^ (7 * k) < 2 ^ 64 := by
        have h1 : byte * 2 ^ (7 * k) < 128 * 2 ^ (7 * k) :=
          mul_lt_mul_of_pos_right hblt (by positivity)
        have h2 : (128 : Nat) * 2 ^ (7 * k) = 2 ^ (7 * k + 7) := by
          rw [pow_add]
          ring
        have h3 : (2 : Nat) ^ (7 * k + 7) ≤ 2 ^ 64 :=
          Nat.pow_le_pow_right (by norm_num) (by omega)
        omega
      rw [Nat.shiftLeft_eq, Nat.mod_eq_of_lt hfit64,
        lor_mul_pow_eq_add byte (7 * k) hres,
        show 7 * k + 7 = 7 * (k + 1) by ring]
      have hresb : result + byte * 2 ^ (7 * k) < 2 ^ (7 * (k + 1)) := by
        have h127 : byte * 2 ^ (7 * k) ≤ 127 * 2 ^ (7 * k) :=
          Nat.mul_le_mul_right _ (by omega)
        have h128 : 2 ^ (7 * k) + 127 * 2 ^ (7 * k) = 2 ^ (7 * (k + 1)) := by
          rw [show 7 * (k + 1) = 7 * k + 7 by ring, pow_add]
          ring
        omega
      have hn' : (x / 128).natAbs ≤ n := by
        have := write_i64_dec x hstop
        omega
      have hpow : (2 : Int) ^ (63 - 7 * k) = 2 ^ (63 - 7 * (k + 1)) * 128 := by
        rw [show (128 : Int) = 2 ^ 7 by norm_num, ← pow_add]
        congr 1
        omega
      have hApos : (0 : Int) < 2 ^ (63 - 7 * (k + 1)) := by positivity
      have hhi' : x / 128 < 2 ^ (63 - 7 * (k + 1)) := by
        rcases Int.lt_or_le (x / 128) (2 ^ (63 - 7 * (k + 1))) with h | h
        · exact h
        · exfalso
          have := Int.ediv_le_ediv (by norm_num : (0:Int) < 128) (le_of_lt hhi)
          nlinarith [Int.le_ediv_iff_mul_le (show (0:Int) < 128 by norm_num)
            |>.mp (le_trans h (le_refl _)), Int.ediv_add_emod x 128,
            Int.emod_nonneg x (show (128:Int) ≠ 0 by norm_num),
            Int.emod_lt_of_pos x (show (0:Int) < 128 by norm_num)]
      have hlo' : -(2 ^ (63 - 7 * (k + 1)) : Int) ≤ x / 128 := by
        have hm : -(2 ^ (63 - 7 * (k + 1)) : Int) * 128 ≤ x := by
          rw [hpow] at hlo
          nlinarith [hlo]
        nlinarith [Int.ediv_add_emod x 128,
          Int.emod_nonneg x (show (128:Int) ≠ 0 by norm_num),
          Int.emod_lt_of_pos x (show (0:Int) < 128 by norm_num)]
      rw [ih (x / 128) hn' (k + 1) (result + byte * 2 ^ (7 * k)) rest
        (by omega) hlo' hhi' hresb]
      -- combine the low 7 bits with the higher groups
      have hsplit := emod_two_pow_split x (64 - 7 * k) (by omega)
      have hidx : 64 - 7 * k - 7 = 64 - 7 * (k + 1) := by omega
      rw [hidx] at hsplit
      set t := x / 128 % (2 ^ (64 - 7 * (k + 1)) : Int) with ht
      have ht0 : (0 : Int) ≤ t := Int.emod_nonneg _ (by positivity)
      have htn : (x % (2 ^ (64 - 7 * k) : Int)).toNat = 128 * t.toNat + byte := by
        rw [hsplit]
        omega
      have harg : result + byte * 2 ^ (7 * k) +
          t.toNat * 2 ^ (7 * (k + 1)) =
          result + (x % (2 ^ (64 - 7 * k) : Int)).toNat * 2 ^ (7 * k) := by
        rw [htn]
        have hexp : (128 * t.toNat + byte) * 2 ^ (7 * k) =
            byte * 2 ^ (7 * k) + t.toNat * (2 ^ (7 * (k + 1))) := by
          rw [show 7 * (k + 1) = 7 * k + 7 by ring, pow_add]
          ring
        rw [hexp]
        omega
      rw [harg]

/-- `read_i64` of `write_i64 x` recovers `x` and consumes exactly the
encoding, for any `i64` value. -/
lemma read_i64_write_i64 (x : Int) (rest : List Nat)
    (hlo : -(2 ^ 63) ≤ x) (hhi : x < 2 ^ 63) :
    read_i64 (write_i64 x ++ rest) = .ok (x, rest) := by
  have h := read_i64_go_write x.natAbs x le_rfl 0 0 rest (by norm_num)
    (by simpa using hlo) (by simpa using hhi) (by norm_num)
  rw [read_i64]
  simp only [Nat.mul_zero, pow_zero, Nat.sub_zero, Nat.zero_add, zero_add,
    mul_one] at h
  rw [h, asInt64_emod x hlo hhi]

/-- `read_u16` of `write_u16 x` recovers `x` and consumes exactly the
encoding. -/
lemma read_u16_write_u16 (x : Nat) (rest : List Nat) (hx : x < 2 ^ 16) :
    read_u16 (write_u16 x ++ rest) = .ok (x, rest) := by
  rw [read_u16, write_u16, read_u64_write_u64 x rest
    (lt_trans hx (by norm_num))]
  have : ¬(x > 0xffff) := by omega
  simp [this]

/-! Characterization of the `Overflow` error. -/

/-- `read_u64_go` at shift `63 - 7*j` overflows exactly when `j` continuation
bytes are followed by a terminator-position byte other than 0x00/0x01. -/
lemma read_u64_go_overflow : ∀ j, j ≤ 9 → ∀ (r : List Nat) (result : Nat),
    (read_u64_go r (63 - 7 * j) result = .error .Overflow ↔
      (j < r.length ∧ (∀ i, i < j → r.getD i 0 &&& 0x80 ≠ 0) ∧
        r.getD j 0 ≠ 0x00 ∧ r.getD j 0 ≠ 0x01)) := by
  intro j
  induction j with
  | zero =>
    intro _ r result
    match r with
    | [] => simp [read_u64_go]
    | b :: rest =>
      rw [read_u64_go]
      by_cases hb : b ≠ 0x00 ∧ b ≠ 0x01
      · rw [if_pos ⟨by norm_num, hb.1, hb.2⟩]
        exact iff_of_true rfl ⟨by simp, fun i hi => absurd hi (by omega),
          by simpa using hb.1, by simpa using hb.2⟩
      · rw [if_neg (fun hcon => hb ⟨hcon.2.1, hcon.2.2⟩)]
        dsimp only
        have hb01 : b = 0x00 ∨ b = 0x01 := by
          by_contra hno
          push_neg at hno
          exact hb ⟨hno.1, hno.2⟩
        have hcont : b &&& 0x80 = 0 := by
          rcases hb01 with rfl | rfl <;> decide
        rw [if_pos hcont]
        refine iff_of_false (by simp) ?_
        rintro ⟨hlen, hcontall, h0, h1⟩
        rcases hb01 with rfl | rfl
        · exact h0 (by simp)
        · exact h1 (by simp)
  | succ j ihj =>
    intro hj r result
    match r with
    | [] => simp [read_u64_go]
    | b :: rest =>
      rw [read_u64_go]
      have hsh : 63 - 7 * (j + 1) ≠ 63 := by omega
      rw [if_neg (fun hcon => hsh hcon.1)]
      dsimp only
      by_cases hcont : b &&& 0x80 = 0
      · rw [if_pos hcont]
        refine iff_of_false (by simp) ?_
        rintro ⟨hlen, hcontall, h0, h1⟩
        exact hcontall 0 (Nat.succ_pos j) (by simpa using hcont)
      · rw [if_neg hcont]
        rw [show 63 - 7 * (j + 1) + 7 = 63 - 7 * j from by omega]
        rw [ihj (by omega) rest _]
        constructor
        · rintro ⟨hlen, hcontall, h0, h1⟩
          refine ⟨by simp; omega, ?_, by simpa using h0, by simpa using h1⟩
          intro i hi
          match i with
          | 0 => simpa using hcont
          | i + 1 => simpa using hcontall i (by omega)
        · rintro ⟨hlen, hcontall, h0, h1⟩
          refine ⟨by simp at hlen ⊢; omega, ?_, by simpa using h0,
            by simpa using h1⟩
          intro i hi
          simpa using hcontall (i + 1) (by omega)

/-- `read_i64_go` analogue: the terminator-position byte must be 0x00 or
0x7f (the two sign-extension patterns). -/
lemma read_i64_go_overflow : ∀ j, j ≤ 9 → ∀ (r : List Nat) (result : Nat),
    (read_i64_go r (63 - 7 * j) result = .error .Overflow ↔
      (j < r.length ∧ (∀ i, i < j → r.getD i 0 &&& 0x80 ≠ 0) ∧
        r.getD j 0 ≠ 0x00 ∧ r.getD j 0 ≠ 0x7f)) := by
  intro j
  induction j with
  | zero =>
    intro _ r result
    match r with
    | [] => simp [read_i64_go]
    | b :: rest =>
      rw [read_i64_go]
      by_cases hb : b ≠ 0x00 ∧ b ≠ 0x7f
      · rw [if_pos ⟨by norm_num, hb.1, hb.2⟩]
        exact iff_of_true rfl ⟨by simp, fun i hi => absurd hi (by omega),
          by simpa using hb.1, by simpa using hb.2⟩
      · rw [if_neg (fun hcon => hb ⟨hcon.2.1, hcon.2.2⟩)]
        dsimp only
        have hb01 : b = 0x00 ∨ b = 0x7f := by
          by_contra hno
          push_neg at hno
          exact hb ⟨hno.1, hno.2⟩
        have hcont : b &&& 0x80 = 0 := by
          rcases hb01 with rfl | rfl <;> decide
        rw [if_pos hcont]
        refine iff_of_false (by simp) ?_
        rintro ⟨hlen, hcontall, h0, h1⟩
        rcases hb01 with rfl | rfl
        · exact h0 (by simp)
        · exact h1 (by simp)
  | succ j ihj =>
    intro hj r result
    match r with
    | [] => simp [read_i64_go]
    | b :: rest =>
      rw [read_i64_go]
      have hsh : 63 - 7 * (j + 1) ≠ 63 := by omega
      rw [if_neg (fun hcon => hsh hcon.1)]
      dsimp only
      by_cases hcont : b &&& 0x80 = 0
      · rw [if_pos hcont]
        refine iff_of_false (by simp) ?_
        rintro ⟨hlen, hcontall, h0, h1⟩
        exact hcontall 0 (Nat.succ_pos j) (by simpa using hcont)
      · rw [if_neg hcont]
        rw [show 63 - 7 * (j + 1) + 7 = 63 - 7 * j from by omega]
        rw [ihj (by omega) rest _]
        constructor
        · rintro ⟨hlen, hcontall, h0, h1⟩
          refine ⟨by simp; omega, ?_, by simpa using h0, by simpa using h1⟩
          intro i hi
          match i with
          | 0 => simpa using hcont
          | i + 1 => simpa using hcontall i (by omega)
        · rintro ⟨hlen, hcontall, h0, h1⟩
          refine ⟨by simp at hlen ⊢; omega, ?_, by simpa using h0,
            by simpa using h1⟩
          intro i hi
          simpa using hcontall (i + 1) (by omega)

end leb128

/-! Endianness and fixed-width integer codec (src/src/endian.rs). -/

/-- src/src/endian.rs: byte order, modelling the `Endian` trait with its two
implementations (`LittleEndian`/`BigEndian`, or the run-time `AnyEndian`). -/
inductive Endian
  | little
  | big
  deriving DecidableEq, Repr

/-- Little-endian value of a byte list. -/
def bytesToNatLE : List Nat → Nat
  | [] => 0
  | b :: r => b + 256 * bytesToNatLE r

/-- Low `w` bytes of a value, little-endian (the in-memory representation of
a `uN` that `read_endian!`/`write_endian!` copy). -/
def natToBytesLE : Nat → Nat → List Nat
  | 0, _ => []
  | w + 1, v => v % 256 :: natToBytesLE w (v / 256)

/-- The bounds check plus byte copy of the `read_endian!` macro
(src/src/endian.rs): take `len` bytes or fail with `Eof`. -/
def readExact (len : Nat) (r : List Nat) : RRes (List Nat) :=
  if r.length < len then .error .Eof else .ok (r.take len, r.drop len)

/-- Value of `len` bytes in the given order (`to_le`/`to_be`). -/
def Endian.combine : Endian → List Nat → Nat
  | .little, bs => bytesToNatLE bs
  | .big, bs => bytesToNatLE bs.reverse

def Endian.read_u16 (e : Endian) (r : List Nat) : RRes Nat :=
  match readExact 2 r with
  | .error err => .error err
  | .ok (bs, r) => .ok (e.combine bs, r)

def Endian.read_u32 (e : Endian) (r : List Nat) : RRes Nat :=
  match readExact 4 r with
  | .error err => .error err
  | .ok (bs, r) => .ok (e.combine bs, r)

def Endian.read_u64 (e : Endian) (r : List Nat) : RRes Nat :=
  match readExact 8 r with
  | .error err => .error err
  | .ok (bs, r) => .ok (e.combine bs, r)

/-- Bytes of a `w`-byte value in the given order (`write_endian!`). -/
def Endian.emit : Endian → Nat → Nat → List Nat
  | .little, w, v => natToBytesLE w v
  | .big, w, v => (natToBytesLE w v).reverse

def Endian.write_u16 (e : Endian) (v : Nat) : List Nat := e.emit 2 v

def Endian.write_u32 (e : Endian) (v : Nat) : List Nat := e.emit 4 v

def Endian.write_u64 (e : Endian) (v : Nat) : List Nat := e.emit 8 v

lemma natToBytesLE_length (w v : Nat) : (natToBytesLE w v).length = w := by
  induction w generalizing v with
  | zero => rfl
  | succ w ih => simp [natToBytesLE, ih]

lemma natToBytesLE_lt (w v : Nat) : ∀ b ∈ natToBytesLE w v, b < 256 := by
  induction w generalizing v with
  | zero => simp [natToBytesLE]
  | succ w ih =>
    intro b hb
    rw [natToBytesLE] at hb
    rcases List.mem_cons.mp hb with rfl | h
    · exact Nat.mod_lt _ (by norm_num)
    · exact ih (v / 256) b h

lemma bytesToNatLE_natToBytesLE (w v : Nat) (hv : v < 2 ^ (8 * w)) :
    bytesToNatLE (natToBytesLE w v) = v := by
  induction w generalizing v with
  | zero =>
    simp only [Nat.mul_zero, pow_zero] at hv
    interval_cases v
    rfl
  | succ w ih =>
    rw [natToBytesLE, bytesToNatLE, ih (v / 256)
      (by
        rw [Nat.div_lt_iff_lt_mul (by norm_num : (0:Nat) < 256)]
        calc v < 2 ^ (8 * (w + 1)) := hv
        _ = 2 ^ (8 * w) * 256 := by
              rw [show 8 * (w + 1) = 8 * w + 8 by ring, pow_add]
              norm_num),
      Nat.add_comm, Nat.mul_comm]
    omega

lemma readExact_append (n : Nat) (bs rest : List Nat) (h : bs.length = n) :
    readExact n (bs ++ rest) = .ok (bs, rest) := by
  rw [readExact, if_neg (by simp [h]), List.take_append_of_le_length (by omega),
    List.drop_append_of_le_length (by omega)]
  subst h
  rw [List.take_length, List.drop_length]
  simp

lemma combine_emit (e : Endian) (w v : Nat) (hv : v < 2 ^ (8 * w)) :
    e.combine (e.emit w v) = v := by
  cases e with
  | little => exact bytesToNatLE_natToBytesLE w v hv
  | big =>
    show bytesToNatLE (natToBytesLE w v).reverse.reverse = v
    rw [List.reverse_reverse]
    exact bytesToNatLE_natToBytesLE w v hv

lemma emit_length (e : Endian) (w v : Nat) : (e.emit w v).length = w := by
  cases e <;> simp [Endian.emit, natToBytesLE_length]

lemma read_write_u16 (e : Endian) (v : Nat) (rest : List Nat)
    (hv : v < 2 ^ 16) :
    e.read_u16 (e.write_u16 v ++ rest) = .ok (v, rest) := by
  rw [Endian.read_u16, Endian.write_u16,
    readExact_append 2 _ rest (emit_length e 2 v)]
  dsimp only
  rw [combine_emit e 2 v hv]

lemma read_write_u32 (e : Endian) (v : Nat) (rest : List Nat)
    (hv : v < 2 ^ 32) :
    e.read_u32 (e.write_u32 v ++ rest) = .ok (v, rest) := by
  rw [Endian.read_u32, Endian.write_u32,
    readExact_append 4 _ rest (emit_length e 4 v)]
  dsimp only
  rw [combine_emit e 4 v hv]

lemma read_write_u64 (e : Endian) (v : Nat) (rest : List Nat)
    (hv : v < 2 ^ 64) :
    e.read_u64 (e.write_u64 v ++ rest) = .ok (v, rest) := by
  rw [Endian.read_u64, Endian.write_u64,
    readExact_append 8 _ rest (emit_length e 8 v)]
  dsimp only
  rw [combine_emit e 8 v hv]

/-! Primitive readers and writers (src/src/read.rs, src/src/write.rs). -/

/-- A single byte (`r.read_u8()` via byteorder). -/
def read_u8 : List Nat → RRes Nat
  | [] => .error .Eof
  | b :: r => .ok (b, r)

/-- Modelled from the spec: the `read_i8` primitive (used for the line
program's `line_base: i8`) is declared in a revision of read.rs that is not
in src/; a byte reinterpreted as a signed 8-bit value. -/
def read_i8 (r : List Nat) : RRes Int :=
  match read_u8 r with
  | .error e => .error e
  | .ok (b, r) => .ok (if b < 128 then (b : Int) else (b : Int) - 256, r)

/-- src/src/read.rs `read_block`: a length-delimited slice; `Invalid` when
the length exceeds the remaining input. -/
def read_block (r : List Nat) (len : Nat) : RRes (List Nat) :=
  if len > r.length then .error .Invalid
  else .ok (r.take len, r.drop len)

/-- The `iter().position(|&x| x == 0)` scan of `read_string`. -/
def nulPosition : List Nat → Option Nat
  | [] => none
  | b :: t => if b = 0 then some 0 else (nulPosition t).map (· + 1)

/-- src/src/read.rs `read_string`, as used by the die.rs revision (returning
the raw bytes before the NUL): scan for the terminator, `Invalid` when none
exists; consume it but exclude it from the value. -/
def read_string (r : List Nat) : RRes (List Nat) :=
  match nulPosition r with
  | none => .error .Invalid
  | some len => .ok (r.take len, r.drop (len + 1))

/-- src/src/read.rs `read_offset`: an offset-sized unsigned integer; sizes
other than 4 and 8 are `Unsupported`. -/
def read_offset (r : List Nat) (e : Endian) (offset_size : Nat) : RRes Nat :=
  match offset_size with
  | 4 => e.read_u32 r
  | 8 => e.read_u64 r
  | _ => .error .Unsupported

/-- src/src/read.rs `read_address`: an address-sized unsigned integer. -/
def read_address (r : List Nat) (e : Endian) (address_size : Nat) : RRes Nat :=
  match address_size with
  | 4 => e.read_u32 r
  | 8 => e.read_u64 r
  | _ => .error .Unsupported

/-- `write_u8` (src/src/write.rs); the `% 256` is the `u8` cast at the call
sites. -/
def write_u8 (v : Nat) : List Nat := [v % 256]

/-- src/src/write.rs `write_offset` (`val as u32` truncates for size 4). -/
def write_offset (e : Endian) (offset_size v : Nat) :
    Except WriteError (List Nat) :=
  match offset_size with
  | 4 => .ok (e.write_u32 v)
  | 8 => .ok (e.write_u64 v)
  | _ => .error .Unsupported

/-- src/src/write.rs `write_address`. -/
def write_address (e : Endian) (address_size v : Nat) :
    Except WriteError (List Nat) :=
  match address_size with
  | 4 => .ok (e.write_u32 v)
  | 8 => .ok (e.write_u64 v)
  | _ => .error .Unsupported

/-! Unit framing (src/src/unit.rs, src/src/read.rs). -/

/-- Modelled from the spec: `read_initial_length(bytes) -> (offset_size,
length)` — the helper called by src/src/unit.rs `UnitCommon::read` is
declared in a revision of read.rs that is not in src/; the identical logic
appears inline in src/src/read.rs `UnitCommon::read` (lines 193-207).  A
first u32 of 0xffffffff selects DWARF64 (u64 length, `offset_size = 8`); a
value below 0xfffffff0 is itself the DWARF32 length (`offset_size = 4`); the
reserved range [0xfffffff0, 0xfffffffe] is `Unsupported`; a length that does
not fit in the remaining input is `Invalid`. -/
def read_initial_length (r : List Nat) (e : Endian) : RRes (Nat × Nat) :=
  match e.read_u32 r with
  | .error err => .error err
  | .ok (len32, r) =>
    if len32 = 0xffffffff then
      match e.read_u64 r with
      | .error err => .error err
      | .ok (len, r) =>
        if len > r.length then .error .Invalid
        else .ok ((8, len), r)
    else if len32 ≥ 0xfffffff0 then .error .Unsupported
    else if len32 > r.length then .error .Invalid
    else .ok ((4, len32), r)

/-- src/src/unit.rs `UnitCommon`: the header fields shared by compilation
and type units, plus the unit's DIE body. -/
structure UnitCommon where
  offset : Nat
  endian : Endian
  version : Nat
  address_size : Nat
  offset_size : Nat
  abbrev_offset : Nat
  data : List Nat
  deriving DecidableEq, Repr

/-- src/src/unit.rs `UnitCommon::read` (lines 340-368): frame the unit via
the initial length, then parse version (rejecting values outside 2..=4),
abbrev offset and address size from the framed bytes; returns the header
(with empty `data`) and the remaining body bytes, consuming the whole
declared length from the input. -/
def UnitCommon.read (r : List Nat) (offset : Nat) (e : Endian) :
    RRes (UnitCommon × List Nat) :=
  match read_initial_length r e with
  | .error err => .error err
  | .ok ((offset_size, len), r) =>
    let data := r.take len
    match e.read_u16 data with
    | .error err => .error err
    | .ok (version, data) =>
      if version < 2 ∨ version > 4 then .error .Unsupported
      else
        match read_offset data e offset_size with
        | .error err => .error err
        | .ok (abbrev_offset, data) =>
          match read_u8 data with
          | .error err => .error err
          | .ok (address_size, data) =>
            .ok (({ offset := offset, endian := e, version := version,
                    address_size := address_size, offset_size := offset_size,
                    abbrev_offset := abbrev_offset, data := [] }, data),
              r.drop len)

/-- src/src/unit.rs `CompilationUnit`: a unit header (the DIE body lives in
`common.data`). -/
structure CompilationUnit where
  common : UnitCommon
  deriving DecidableEq, Repr

/-- src/src/unit.rs `CompilationUnit::read` (lines 141-149). -/
def CompilationUnit.read (r : List Nat) (offset : Nat) (e : Endian) :
    RRes CompilationUnit :=
  match UnitCommon.read r offset e with
  | .error err => .error err
  | .ok ((common, data), r) =>
    .ok ({ common := { common with data := data } }, r)

/-- src/src/unit.rs `CompilationUnit::base_header_len`: version +
abbrev_offset + address_size. -/
def CompilationUnit.base_header_len (offset_size : Nat) : Nat :=
  2 + offset_size + 1

/-- src/src/unit.rs `UnitCommon::write` (lines 370-388): initial length (4
bytes for DWARF32, rejecting lengths at or above 0xfffffff0; the 0xffffffff
escape plus a u64 for DWARF64), then version, abbrev offset and address
size. -/
def UnitCommon.write (u : UnitCommon) (len : Nat) :
    Except WriteError (List Nat) :=
  match (match u.offset_size with
    | 4 =>
      if len ≥ 0xfffffff0 then Except.error WriteError.Invalid
      else .ok (u.endian.write_u32 len)
    | 8 => .ok (u.endian.write_u32 0xffffffff ++ u.endian.write_u64 len)
    | _ => Except.error WriteError.Unsupported) with
  | .error err => .error err
  | .ok lenBytes =>
    match write_offset u.endian u.offset_size u.abbrev_offset with
    | .error err => .error err
    | .ok offBytes =>
      .ok (lenBytes ++ u.endian.write_u16 u.version ++ offBytes ++
        write_u8 u.address_size)

/-- src/src/unit.rs `CompilationUnit::write` (lines 151-156): header with
the declared length covering the base header and the body, then the raw DIE
body bytes. -/
def CompilationUnit.write (cu : CompilationUnit) :
    Except WriteError (List Nat) :=
  let len := CompilationUnit.base_header_len cu.common.offset_size +
    cu.common.data.length
  match cu.common.write len with
  | .error err => .error err
  | .ok hdr => .ok (hdr ++ cu.common.data)

/-! Round-trip lemmas for the primitive codec. -/

lemma okBind {α β : Type} (a : α) (f : α → Except ReadError β) :
    (Except.ok a >>= f) = f a := rfl

lemma write_u64_small (v : Nat) (hv : v < 128) : leb128.write_u64 v = [v] := by
  rw [leb128.write_u64]
  have h7 : v >>> 7 = 0 := by
    rw [Nat.shiftRight_eq_div_pow]
    omega
  rw [if_pos h7, leb128.and_7f_eq_mod, Nat.mod_eq_of_lt hv]

lemma read_u64_single (v : Nat) (rest : List Nat) (hv : v < 128) :
    leb128.read_u64 (v :: rest) = .ok (v, rest) := by
  have := leb128.read_u64_write_u64 v rest (by omega)
  rwa [write_u64_small v hv] at this

lemma write_u16_small (v : Nat) (hv : v < 128) : leb128.write_u16 v = [v] :=
  write_u64_small v hv

lemma read_u16_single (v : Nat) (rest : List Nat) (hv : v < 128) :
    leb128.read_u16 (v :: rest) = .ok (v, rest) := by
  rw [leb128.read_u16, read_u64_single v rest hv]
  dsimp only
  have : ¬(v > 0xffff) := by omega
  rw [if_neg this]

lemma read_block_append (bs rest : List Nat) :
    read_block (bs ++ rest) bs.length = .ok (bs, rest) := by
  rw [read_block, if_neg (by simp)]
  rw [List.take_append_of_le_length le_rfl,
    List.drop_append_of_le_length le_rfl, List.take_length, List.drop_length]
  simp

lemma nulPosition_append (bs rest : List Nat) (h : ∀ b ∈ bs, b ≠ 0) :
    nulPosition (bs ++ (0 :: rest)) = some bs.length := by
  induction bs with
  | nil => simp [nulPosition]
  | cons b t ih =>
    rw [List.cons_append, nulPosition,
      if_neg (h b (List.mem_cons_self b t)),
      ih (fun x hx => h x (List.mem_cons_of_mem b hx))]
    rfl

lemma read_string_append (bs rest : List Nat) (h : ∀ b ∈ bs, b ≠ 0) :
    read_string (bs ++ (0 :: rest)) = .ok (bs, rest) := by
  rw [read_string, nulPosition_append bs rest h]
  dsimp only
  rw [List.take_append_of_le_length le_rfl, List.take_length]
  have hd : bs ++ 0 :: rest = (bs ++ [0]) ++ rest := by simp
  rw [hd, List.drop_append_of_le_length (by simp)]
  simp

lemma read_write_address (e : Endian) (addrsize v : Nat)
    (h : addrsize = 4 ∨ addrsize = 8) (hv : v < 2 ^ (8 * addrsize)) :
    ∃ bs, write_address e addrsize v = .ok bs ∧
      ∀ rest, read_address (bs ++ rest) e addrsize = .ok (v, rest) := by
  rcases h with rfl | rfl
  · exact ⟨e.write_u32 v, rfl, fun rest => read_write_u32 e v rest
      (by simpa using hv)⟩
  · exact ⟨e.write_u64 v, rfl, fun rest => read_write_u64 e v rest
      (by simpa using hv)⟩

lemma read_write_offset (e : Endian) (offsize v : Nat)
    (h : offsize = 4 ∨ offsize = 8) (hv : v < 2 ^ (8 * offsize)) :
    ∃ bs, write_offset e offsize v = .ok bs ∧
      ∀ rest, read_offset (bs ++ rest) e offsize = .ok (v, rest) := by
  rcases h with rfl | rfl
  · exact ⟨e.write_u32 v, rfl, fun rest => read_write_u32 e v rest
      (by simpa using hv)⟩
  · exact ⟨e.write_u64 v, rfl, fun rest => read_write_u64 e v rest
      (by simpa using hv)⟩

/-! DWARF constants (src/src/constant.rs is not present under src/;
modelled from the spec's form table, scenarios and opcode tables, which use
the standard DWARF numbering). -/

namespace constant

abbrev DW_TAG_null : Nat := 0x00
abbrev DW_TAG_namespace : Nat := 0x39

abbrev DW_AT_null : Nat := 0x00
abbrev DW_AT_sibling : Nat := 0x01
abbrev DW_AT_name : Nat := 0x03
abbrev DW_AT_stmt_list : Nat := 0x10
abbrev DW_AT_comp_dir : Nat := 0x1b

abbrev DW_FORM_null : Nat := 0x00
abbrev DW_FORM_addr : Nat := 0x01
abbrev DW_FORM_block2 : Nat := 0x03
abbrev DW_FORM_block4 : Nat := 0x04
abbrev DW_FORM_data2 : Nat := 0x05
abbrev DW_FORM_data4 : Nat := 0x06
abbrev DW_FORM_data8 : Nat := 0x07
abbrev DW_FORM_string : Nat := 0x08
abbrev DW_FORM_block : Nat := 0x09
abbrev DW_FORM_block1 : Nat := 0x0a
abbrev DW_FORM_data1 : Nat := 0x0b
abbrev DW_FORM_flag : Nat := 0x0c
abbrev DW_FORM_sdata : Nat := 0x0d
abbrev DW_FORM_strp : Nat := 0x0e
abbrev DW_FORM_udata : Nat := 0x0f
abbrev DW_FORM_ref_addr : Nat := 0x10
abbrev DW_FORM_ref1 : Nat := 0x11
abbrev DW_FORM_ref2 : Nat := 0x12
abbrev DW_FORM_ref4 : Nat := 0x13
abbrev DW_FORM_ref8 : Nat := 0x14
abbrev DW_FORM_ref_udata : Nat := 0x15
abbrev DW_FORM_indirect : Nat := 0x16
abbrev DW_FORM_sec_offset : Nat := 0x17
abbrev DW_FORM_exprloc : Nat := 0x18
abbrev DW_FORM_flag_present : Nat := 0x19
abbrev DW_FORM_ref_sig8 : Nat := 0x20

abbrev DW_CHILDREN_no : Nat := 0x00
abbrev DW_CHILDREN_yes : Nat := 0x01

abbrev DW_LNS_extended : Nat := 0x00
abbrev DW_LNS_copy : Nat := 0x01
abbrev DW_LNS_advance_pc : Nat := 0x02
abbrev DW_LNS_advance_line : Nat := 0x03
abbrev DW_LNS_set_file : Nat := 0x04
abbrev DW_LNS_set_column : Nat := 0x05
abbrev DW_LNS_negate_stmt : Nat := 0x06
abbrev DW_LNS_set_basic_block : Nat := 0x07
abbrev DW_LNS_const_add_pc : Nat := 0x08
abbrev DW_LNS_fixed_advance_pc : Nat := 0x09
abbrev DW_LNS_set_prologue_end : Nat := 0x0a
abbrev DW_LNS_set_epilogue_begin : Nat := 0x0b
abbrev DW_LNS_set_isa : Nat := 0x0c

abbrev DW_LNE_end_sequence : Nat := 0x01
abbrev DW_LNE_set_address : Nat := 0x02
abbrev DW_LNE_define_file : Nat := 0x03
abbrev DW_LNE_set_discriminator : Nat := 0x04

end constant

/-! Attribute values (src/src/die.rs). -/

/-- src/src/die.rs `AttributeData`: the tagged union over attribute value
kinds; byte-slice variants carry the bytes themselves. -/
inductive AttributeData
  | Null
  | Address (val : Nat)
  | Block (val : List Nat)
  | Data1 (val : Nat)
  | Data2 (val : Nat)
  | Data4 (val : Nat)
  | Data8 (val : Nat)
  | UData (val : Nat)
  | SData (val : Int)
  | Flag (val : Bool)
  | String (val : List Nat)
  | StringOffset (val : Nat)
  | Ref (val : Nat)
  | RefAddress (val : Nat)
  | RefSig (val : Nat)
  | SecOffset (val : Nat)
  | ExprLoc (val : List Nat)
  deriving DecidableEq, Repr

open constant

/-- src/src/die.rs `AttributeData::read` (lines 415-489): dispatch on the
form.  The `DW_FORM_indirect` case recurses after reading the actual form as
a ULEB u16; that read consumes at least one byte, so the recursion depth is
bounded by the input length and `fuel` (initialized to `r.length + 1` in
`AttributeData.read`) never runs out. -/
def AttributeData.read_go : Nat → UnitCommon → Nat → List Nat →
    Except ReadError (AttributeData × List Nat)
  | 0, _, _, _ => .error .Invalid
  | fuel + 1, u, form, r =>
    if form = DW_FORM_addr then do
      let (val, r) ← read_address r u.endian u.address_size
      .ok (.Address val, r)
    else if form = DW_FORM_block2 then do
      let (len, r) ← u.endian.read_u16 r
      let (val, r) ← read_block r len
      .ok (.Block val, r)
    else if form = DW_FORM_block4 then do
      let (len, r) ← u.endian.read_u32 r
      let (val, r) ← read_block r len
      .ok (.Block val, r)
    else if form = DW_FORM_data2 then do
      let (val, r) ← u.endian.read_u16 r
      .ok (.Data2 val, r)
    else if form = DW_FORM_data4 then do
      let (val, r) ← u.endian.read_u32 r
      .ok (.Data4 val, r)
    else if form = DW_FORM_data8 then do
      let (val, r) ← u.endian.read_u64 r
      .ok (.Data8 val, r)
    else if form = DW_FORM_string then do
      let (val, r) ← read_string r
      .ok (.String val, r)
    else if form = DW_FORM_block then do
      let (len, r) ← leb128.read_u64 r
      let (val, r) ← read_block r len
      .ok (.Block val, r)
    else if form = DW_FORM_block1 then do
      let (len, r) ← read_u8 r
      let (val, r) ← read_block r len
      .ok (.Block val, r)
    else if form = DW_FORM_data1 then do
      let (val, r) ← read_u8 r
      .ok (.Data1 val, r)
    else if form = DW_FORM_flag then do
      let (val, r) ← read_u8 r
      .ok (.Flag (val ≠ 0), r)
    else if form = DW_FORM_sdata then do
      let (val, r) ← leb128.read_i64 r
      .ok (.SData val, r)
    else if form = DW_FORM_strp then do
      let (val, r) ← read_offset r u.endian u.offset_size
      .ok (.StringOffset val, r)
    else if form = DW_FORM_udata then do
      let (val, r) ← leb128.read_u64 r
      .ok (.UData val, r)
    else if form = DW_FORM_ref_addr then do
      let (val, r) ←
        if u.version = 2 then
          read_address r u.endian u.address_size
        else
          read_offset r u.endian u.offset_size
      .ok (.RefAddress val, r)
    else if form = DW_FORM_ref1 then do
      let (val, r) ← read_u8 r
      .ok (.Ref val, r)
    else if form = DW_FORM_ref2 then do
      let (val, r) ← u.endian.read_u16 r
      .ok (.Ref val, r)
    else if form = DW_FORM_ref4 then do
      let (val, r) ← u.endian.read_u32 r
      .ok (.Ref val, r)
    else if form = DW_FORM_ref8 then do
      let (val, r) ← u.endian.read_u64 r
      .ok (.Ref val, r)
    else if form = DW_FORM_ref_udata then do
      let (val, r) ← leb128.read_u64 r
      .ok (.Ref val, r)
    else if form = DW_FORM_indirect then do
      let (val, r) ← leb128.read_u16 r
      AttributeData.read_go fuel u val r
    else if form = DW_FORM_sec_offset then do
      let (val, r) ← read_offset r u.endian u.offset_size
      .ok (.SecOffset val, r)
    else if form = DW_FORM_exprloc then do
      let (len, r) ← leb128.read_u64 r
      let (val, r) ← read_block r len
      .ok (.ExprLoc val, r)
    else if form = DW_FORM_flag_present then
      .ok (.Flag true, r)
    else if form = DW_FORM_ref_sig8 then do
      let (val, r) ← u.endian.read_u64 r
      .ok (.RefSig val, r)
    else
      .error .Unsupported

/-- src/src/die.rs `AttributeData::read`. -/
def AttributeData.read (u : UnitCommon) (form : Nat) (r : List Nat) :
    RRes AttributeData :=
  AttributeData.read_go (r.length + 1) u form r

/-- The form-dispatched body of src/src/die.rs `AttributeData::write`
(lines 502-586): the form/variant pair selects the mirror image of the
decoder and a mismatched pair is `Unsupported`.  The `(Flag, flag_present)`
arm asserts the flag is true in the source (`assert!(*val)`); the panic is
modelled as `Invalid`. -/
def AttributeData.write_form (d : AttributeData) (u : UnitCommon)
    (form : Nat) : Except WriteError (List Nat) :=
    if form = DW_FORM_addr then
      match d with
      | .Address val => write_address u.endian u.address_size val
      | _ => .error .Unsupported
    else if form = DW_FORM_block1 then
      match d with
      | .Block val => .ok (write_u8 val.length ++ val)
      | _ => .error .Unsupported
    else if form = DW_FORM_block2 then
      match d with
      | .Block val => .ok (u.endian.write_u16 val.length ++ val)
      | _ => .error .Unsupported
    else if form = DW_FORM_block4 then
      match d with
      | .Block val => .ok (u.endian.write_u32 val.length ++ val)
      | _ => .error .Unsupported
    else if form = DW_FORM_block then
      match d with
      | .Block val => .ok (leb128.write_u64 val.length ++ val)
      | _ => .error .Unsupported
    else if form = DW_FORM_data1 then
      match d with
      | .Data1 val => .ok (write_u8 val)
      | _ => .error .Unsupported
    else if form = DW_FORM_data2 then
      match d with
      | .Data2 val => .ok (u.endian.write_u16 val)
      | _ => .error .Unsupported
    else if form = DW_FORM_data4 then
      match d with
      | .Data4 val => .ok (u.endian.write_u32 val)
      | _ => .error .Unsupported
    else if form = DW_FORM_data8 then
      match d with
      | .Data8 val => .ok (u.endian.write_u64 val)
      | _ => .error .Unsupported
    else if form = DW_FORM_udata then
      match d with
      | .UData val => .ok (leb128.write_u64 val)
      | _ => .error .Unsupported
    else if form = DW_FORM_sdata then
      match d with
      | .SData val => .ok (leb128.write_i64 val)
      | _ => .error .Unsupported
    else if form = DW_FORM_flag then
      match d with
      | .Flag val => .ok (write_u8 (if val then 1 else 0))
      | _ => .error .Unsupported
    else if form = DW_FORM_flag_present then
      match d with
      | .Flag val => if val then .ok [] else .error .Invalid
      | _ => .error .Unsupported
    else if form = DW_FORM_string then
      match d with
      | .String val => .ok (val ++ write_u8 0)
      | _ => .error .Unsupported
    else if form = DW_FORM_strp then
      match d with
      | .StringOffset val => write_offset u.endian u.offset_size val
      | _ => .error .Unsupported
    else if form = DW_FORM_ref1 then
      match d with
      | .Ref val => .ok (write_u8 val)
      | _ => .error .Unsupported
    else if form = DW_FORM_ref2 then
      match d with
      | .Ref val => .ok (u.endian.write_u16 val)
      | _ => .error .Unsupported
    else if form = DW_FORM_ref4 then
      match d with
      | .Ref val => .ok (u.endian.write_u32 val)
      | _ => .error .Unsupported
    else if form = DW_FORM_ref8 then
      match d with
      | .Ref val => .ok (u.endian.write_u64 val)
      | _ => .error .Unsupported
    else if form = DW_FORM_ref_udata then
      match d with
      | .Ref val => .ok (leb128.write_u64 val)
      | _ => .error .Unsupported
    else if form = DW_FORM_ref_addr then
      match d with
      | .RefAddress val =>
        if u.version = 2 then
          write_address u.endian u.address_size val
        else
          write_offset u.endian u.offset_size val
      | _ => .error .Unsupported
    else if form = DW_FORM_ref_sig8 then
      match d with
      | .RefSig val => .ok (u.endian.write_u64 val)
      | _ => .error .Unsupported
    else if form = DW_FORM_sec_offset then
      match d with
      | .SecOffset val => write_offset u.endian u.offset_size val
      | _ => .error .Unsupported
    else if form = DW_FORM_exprloc then
      match d with
      | .ExprLoc val => .ok (leb128.write_u64 val.length ++ val)
      | _ => .error .Unsupported
    else
      .error .Unsupported

/-- src/src/die.rs `AttributeData::write`, entry point: the optional
leading indirect-form ULEB followed by the dispatched encoding. -/
def AttributeData.write (d : AttributeData) (u : UnitCommon) (form : Nat)
    (indirect : Bool) : Except WriteError (List Nat) :=
  let pre := if indirect then leb128.write_u16 form else []
  match d.write_form u form with
  | .error err => .error err
  | .ok bs => .ok (pre ++ bs)

/-! DIEs and the DIE cursor (src/src/die.rs, src/src/abbrev.rs). -/

/-- src/src/abbrev.rs `AbbrevAttribute`: one attribute schema entry (the
source field `at` is a Lean keyword, hence `at_`). -/
structure AbbrevAttribute where
  at_ : Nat
  form : Nat
  deriving DecidableEq, Repr

/-- src/src/abbrev.rs `Abbrev`. -/
structure Abbrev where
  code : Nat
  tag : Nat
  children : Bool
  attributes : List AbbrevAttribute
  deriving DecidableEq, Repr

/-- src/src/abbrev.rs `AbbrevHash`, a map from code to abbreviation; the
hash map is modelled as an association list searched by code (codes are
unique within a table, so `find?` is the map lookup). -/
def AbbrevHash := List Abbrev

/-- `AbbrevHash::get`. -/
def AbbrevHash.get (ah : AbbrevHash) (code : Nat) : Option Abbrev :=
  List.find? (fun a => a.code == code) ah

/-- src/src/die.rs `Attribute` (field `at` renamed `at_`; `at` is a Lean
keyword). -/
structure Attribute where
  at_ : Nat
  data : AttributeData
  deriving DecidableEq, Repr

/-- src/src/die.rs `Die`. -/
structure Die where
  offset : Nat
  code : Nat
  tag : Nat
  children : Bool
  attributes : List Attribute
  deriving DecidableEq, Repr

/-- src/src/die.rs `Die::null` / `set_null`. -/
def Die.null (offset : Nat) : Die :=
  { offset := offset, code := 0, tag := constant.DW_TAG_null,
    children := false, attributes := [] }

/-- src/src/die.rs `Die::is_null`: a code of zero marks the null DIE. -/
def Die.is_null (d : Die) : Bool :=
  d.code == 0

/-- src/src/die.rs `Attribute::read`. -/
def Attribute.read (r : List Nat) (u : UnitCommon) (ab : AbbrevAttribute) :
    Except ReadError (Attribute × List Nat) := do
  let (data, r) ← AttributeData.read u ab.form r
  .ok ({ at_ := ab.at_, data := data }, r)

/-- The attribute loop of src/src/die.rs `Die::read`: decode each schema
entry in order. -/
def Die.readAttrs (u : UnitCommon) : List AbbrevAttribute → List Nat →
    Except ReadError (List Attribute × List Nat)
  | [], r => .ok ([], r)
  | ab :: abrest, r => do
    let (attr, r) ← Attribute.read r u ab
    let (attrs, r) ← Die.readAttrs u abrest r
    .ok (attr :: attrs, r)

/-- src/src/die.rs `Die::read` (lines 268-295): a ULEB code (zero is the
null DIE), then the abbreviation lookup (`Invalid` if absent) and the
attribute values in schema order. -/
def Die.read (r : List Nat) (offset : Nat) (u : UnitCommon)
    (abbrev_hash : AbbrevHash) : Except ReadError (Die × List Nat) := do
  let (code, r) ← leb128.read_u64 r
  if code = 0 then
    .ok (Die.null offset, r)
  else
    match abbrev_hash.get code with
    | none => .error .Invalid
    | some abbr => do
      let (attributes, r) ← Die.readAttrs u abbr.attributes r
      .ok ({ offset := offset, code := code, tag := abbr.tag,
             children := abbr.children, attributes := attributes }, r)

/-- src/src/die.rs `DieIterator` state: remaining bytes, current offset and
the (reused) current entry; the unit and abbreviation table are the borrowed
context, passed to each operation. -/
structure DieIterator where
  r : List Nat
  offset : Nat
  entry : Die
  deriving DecidableEq, Repr

/-- src/src/die.rs `DieIterator::new`. -/
def DieIterator.new (r : List Nat) (offset : Nat) : DieIterator :=
  { r := r, offset := offset, entry := Die.null 0 }

/-- src/src/die.rs `DieIterator::next` (lines 50-60): `None` at end of
input; otherwise read the entry at the cursor and advance the offset by the
bytes consumed. -/
def DieIterator.next (u : UnitCommon) (ab : AbbrevHash) (st : DieIterator) :
    Except ReadError (Option Die × DieIterator) :=
  if st.r.length = 0 then
    .ok (none, st)
  else
    match Die.read st.r st.offset u ab with
    | .error err => .error err
    | .ok (entry, r) =>
      .ok (some entry,
        { r := r
          offset := st.offset + (st.r.length - r.length)
          entry := entry })

/-- The `DW_AT_sibling` scan of src/src/die.rs `next_sibling` (lines 81-89):
the first attribute with that code sets the jump target (unit offset plus
`Ref` value) and the scan breaks whether or not the value was a `Ref`. -/
def siblingOffset (attrs : List Attribute) (unitOffset : Nat) : Nat :=
  match List.find? (fun a => a.at_ == constant.DW_AT_sibling) attrs with
  | some a =>
    match a.data with
    | .Ref o => unitOffset + o
    | _ => 0
  | none => 0

/-- Loop of src/src/die.rs `DieIterator::next_sibling` (lines 76-111).
Every iteration that continues consumes at least one input byte (by the jump
or by `next`), so the `fuel` of `next_sibling` never runs out. -/
def DieIterator.next_sibling_go (u : UnitCommon) (ab : AbbrevHash) :
    Nat → Int → DieIterator → Except ReadError (Option Die × DieIterator)
  | 0, _, _ => .error .Invalid
  | fuel + 1, depth, st =>
    let (depth, st) :=
      if st.entry.children then
        let depth := depth + 1
        let sibling_offset := siblingOffset st.entry.attributes u.offset
        if sibling_offset > st.offset then
          let relative_offset := sibling_offset - st.offset
          if relative_offset ≤ st.r.length then
            (depth - 1,
              { r := st.r.drop relative_offset
                offset := sibling_offset
                entry := Die.null 0 })
          else
            (depth, st)
        else
          (depth, st)
      else
        (depth, st)
    match DieIterator.next u ab st with
    | .error err => .error err
    | .ok (none, st) => .ok (none, st)
    | .ok (some e, st) =>
      if depth ≤ 0 then
        .ok (some e, st)
      else
        DieIterator.next_sibling_go u ab fuel
          (if e.is_null then depth - 1 else depth) st

/-- src/src/die.rs `DieIterator::next_sibling`. -/
def DieIterator.next_sibling (u : UnitCommon) (ab : AbbrevHash)
    (st : DieIterator) : Except ReadError (Option Die × DieIterator) :=
  DieIterator.next_sibling_go u ab (st.r.length + 1) 0 st

/-! The `DW_FORM_ref_addr` branch of the other `AttributeData::read` in the
crate (src/src/read.rs lines 407-410, the revision wired into lib.rs): it
reads an offset-sized value regardless of the unit version, unlike
src/src/die.rs lines 457-464. -/

/-- src/src/read.rs `AttributeData::read`, `DW_FORM_ref_addr` arm (lines
407-410): always `read_offset`, with no version check. -/
def refAddrReadRS (u : UnitCommon) (r : List Nat) :
    Except ReadError (AttributeData × List Nat) := do
  let (val, r) ← read_offset r u.endian u.offset_size
  .ok (.RefAddress val, r)

/-! Line-number program (src/src/line.rs). -/

/-- src/src/line.rs `FileEntry`. -/
structure FileEntry where
  path : List Nat
  directory : Nat
  timestamp : Nat
  length : Nat
  deriving DecidableEq, Repr

/-- src/src/line.rs `FileEntry::default`. -/
def FileEntry.default : FileEntry :=
  { path := [], directory := 0, timestamp := 0, length := 0 }

/-- src/src/line.rs `FileEntry::read` (lines 349-361). -/
def FileEntry.read (r : List Nat) : Except ReadError (FileEntry × List Nat) := do
  let (path, r) ← read_string r
  let (directory, r) ← leb128.read_u64 r
  let (timestamp, r) ← leb128.read_u64 r
  let (length, r) ← leb128.read_u64 r
  .ok ({ path := path, directory := directory, timestamp := timestamp,
         length := length }, r)

/-- src/src/line.rs `LineProgram`: parsed header plus the opcode stream. -/
structure LineProgram where
  offset : Nat
  endian : Endian
  version : Nat
  address_size : Nat
  offset_size : Nat
  address_step : Nat
  operation_range : Nat
  default_statement : Bool
  line_base : Int
  line_range : Nat
  opcode_base : Nat
  standard_opcode_lengths : List Nat
  include_directories : List (List Nat)
  files : List FileEntry
  data : List Nat
  deriving DecidableEq, Repr

/-- The include-directory loop of src/src/line.rs `LineProgram::read`
(lines 87-96): NUL-terminated names until an empty name; running out of
bytes is `Invalid`.  Each iteration consumes at least one byte, so the fuel
(initialized to the input length plus one) never runs out. -/
def readNameListGo : Nat → List Nat → Except ReadError (List (List Nat) × List Nat)
  | 0, _ => .error .Invalid
  | fuel + 1, header =>
    match header with
    | [] => .error .Invalid
    | b :: t =>
      if b = 0 then
        .ok ([], t)
      else do
        let (s, header) ← read_string (b :: t)
        let (rest, header) ← readNameListGo fuel header
        .ok (s :: rest, header)

/-- The file-entry loop of src/src/line.rs `LineProgram::read`
(lines 104-113). -/
def readFileListGo : Nat → List Nat → Except ReadError (List FileEntry × List Nat)
  | 0, _ => .error .Invalid
  | fuel + 1, header =>
    match header with
    | [] => .error .Invalid
    | b :: t =>
      if b = 0 then
        .ok ([], t)
      else do
        let (fe, header) ← FileEntry.read (b :: t)
        let (rest, header) ← readFileListGo fuel header
        .ok (fe :: rest, header)

/-- src/src/line.rs `LineProgram::read` (lines 34-137): initial length,
version (2..=4), bounds-checked header length, the fixed header fields (each
zero-able field rejected when zero), standard opcode lengths, then the
directory list seeded with `comp_dir` and the file list seeded with a
default entry whose path is `comp_name`. -/
def LineProgram.read (r : List Nat) (offset : Nat) (e : Endian)
    (address_size : Nat) (comp_dir comp_name : List Nat) :
    Except ReadError (LineProgram × List Nat) := do
  let ((offset_size, len), r) ← read_initial_length r e
  let data := r.take len
  let (version, data) ← e.read_u16 data
  if version < 2 ∨ version > 4 then .error .Unsupported
  else do
  let (header_length, data) ← read_offset data e offset_size
  if header_length > data.length then .error .Invalid
  else do
  let header := data.take header_length
  let data := data.drop header_length
  let (address_step, header) ← read_u8 header
  if address_step = 0 then .error .Invalid
  else do
  let (operation_range, header) ←
    if version ≥ 4 then read_u8 header else .ok (1, header)
  if operation_range = 0 then .error .Invalid
  else do
  let (default_statement, header) ← (read_u8 header).map
    (fun p => (p.1 != 0, p.2))
  let (line_base, header) ← read_i8 header
  let (line_range, header) ← read_u8 header
  if line_range = 0 then .error .Invalid
  else do
  let (opcode_base, header) ← read_u8 header
  if opcode_base = 0 then .error .Invalid
  else do
  let (standard_opcode_lengths, header) ← read_block header (opcode_base - 1)
  let (dirs, header) ← readNameListGo (header.length + 1) header
  let (fileEntries, header) ← readFileListGo (header.length + 1) header
  if header.length ≠ 0 then .error .Invalid
  else
    .ok ({ offset := offset
           endian := e
           version := version
           address_size := address_size
           offset_size := offset_size
           address_step := address_step
           operation_range := operation_range
           default_statement := default_statement
           line_base := line_base
           line_range := line_range
           opcode_base := opcode_base
           standard_opcode_lengths := standard_opcode_lengths
           include_directories := comp_dir :: dirs
           files := { path := comp_name, directory := 0, timestamp := 0,
                      length := 0 } :: fileEntries
           data := data }, r.drop len)

/-- src/src/line.rs `Line`: the state-machine registers, one row per
emission. -/
structure Line where
  address : Nat
  operation : Nat
  file : Nat
  line : Nat
  column : Nat
  statement : Bool
  basic_block : Bool
  sequence_end : Bool
  prologue_end : Bool
  epilogue_begin : Bool
  isa : Nat
  discriminator : Nat
  deriving DecidableEq, Repr

/-- src/src/line.rs `Line::new`. -/
def Line.new (statement : Bool) : Line :=
  { address := 0, operation := 0, file := 1, line := 1, column := 0,
    statement := statement, basic_block := false, sequence_end := false,
    prologue_end := false, epilogue_begin := false, isa := 0,
    discriminator := 0 }

/-- src/src/line.rs `LineIterator`: interpreter state.  `program` is owned
by the iterator because `DW_LNE_define_file` appends to its file list. -/
structure LineIterator where
  program : LineProgram
  line : Line
  copy : Bool
  data : List Nat
  deriving DecidableEq, Repr

/-- src/src/line.rs `LineIterator::new` (lines 154-163). -/
def LineIterator.new (program : LineProgram) : LineIterator :=
  { program := program, line := Line.new program.default_statement,
    copy := false, data := program.data }

/-- The `u64` cast of an `i64` value (`delta as u64`). -/
def u64ofInt (x : Int) : Nat :=
  (x % (2 ^ 64 : Int)).toNat

/-- src/src/line.rs `LineIterator::advance_pc` (lines 282-287): VLIW
operation advance; `u64` sums and products wrap modulo `2^64`. -/
def LineIterator.advance_pc (it : LineIterator) (op_delta : Nat) :
    LineIterator :=
  let operation := (it.line.operation + op_delta) % 2 ^ 64
  let address_delta := operation / it.program.operation_range
  { it with line := { it.line with
      operation := operation % it.program.operation_range
      address := (it.line.address + it.program.address_step * address_delta) %
        2 ^ 64 } }

/-- src/src/line.rs `LineIterator::advance_line` (lines 289-291):
`wrapping_add` of the delta cast to u64. -/
def LineIterator.advance_line (it : LineIterator) (delta : Int) :
    LineIterator :=
  { it with line := { it.line with
      line := (it.line.line + u64ofInt delta) % 2 ^ 64 } }

/-- src/src/line.rs `LineIterator::advance_special` (lines 273-280).  The
`opcode - opcode_base` subtraction is on `u8` values with `opcode >=
opcode_base` at the call site (the natural subtraction matches it there). -/
def LineIterator.advance_special (it : LineIterator) (opcode : Nat) :
    LineIterator :=
  let delta := opcode - it.program.opcode_base
  let op_delta := delta / it.program.line_range
  let line_delta := delta % it.program.line_range
  let line_delta : Int := it.program.line_base + (line_delta : Int)
  (it.advance_pc op_delta).advance_line line_delta

/-- The unknown-standard-opcode skip of src/src/line.rs `next_opcode`
(lines 228-230): consume `n` ULEB operands. -/
def skipLeb128 : Nat → List Nat → Except ReadError (Unit × List Nat)
  | 0, r => .ok ((), r)
  | n + 1, r => do
    let (_, r) ← leb128.read_u64 r
    skipLeb128 n r

/-- src/src/line.rs `LineIterator::next_extended` (lines 240-271): a ULEB
length delimits the region; a zero sub-opcode is `Invalid`; unknown
sub-opcodes are skipped with the region. -/
def LineIterator.next_extended (it : LineIterator) (r : List Nat) :
    Except ReadError (LineIterator × List Nat) := do
  let (len, r) ← leb128.read_u64 r
  if len > r.length then .error .Invalid
  else do
  let data := r.take len
  let r := r.drop len
  let (opcode, data) ← read_u8 data
  if opcode = 0 then .error .Invalid
  else if opcode = constant.DW_LNE_end_sequence then
    .ok ({ it with
           line := { it.line with sequence_end := true }
           copy := true }, r)
  else if opcode = constant.DW_LNE_set_address then do
    let (address, _) ← read_address data it.program.endian
      it.program.address_size
    .ok ({ it with
           line := { it.line with
                     address := address
                     operation := 0 } }, r)
  else if opcode = constant.DW_LNE_define_file then do
    let (fe, _) ← FileEntry.read data
    .ok ({ it with
           program := { it.program with
                        files := it.program.files ++ [fe] } }, r)
  else if opcode = constant.DW_LNE_set_discriminator then do
    let (d, _) ← leb128.read_u64 data
    .ok ({ it with line := { it.line with discriminator := d } }, r)
  else
    .ok (it, r)

/-- src/src/line.rs `LineIterator::next_opcode` (lines 199-238). -/
def LineIterator.next_opcode (it : LineIterator) (r : List Nat) :
    Except ReadError (LineIterator × List Nat) := do
  let (opcode, r) ← read_u8 r
  if opcode = constant.DW_LNS_extended then it.next_extended r
  else if opcode = constant.DW_LNS_copy then
    .ok ({ it with copy := true }, r)
  else if opcode = constant.DW_LNS_advance_pc then do
    let (d, r) ← leb128.read_u64 r
    .ok (it.advance_pc d, r)
  else if opcode = constant.DW_LNS_advance_line then do
    let (d, r) ← leb128.read_i64 r
    .ok (it.advance_line d, r)
  else if opcode = constant.DW_LNS_set_file then do
    let (v, r) ← leb128.read_u64 r
    .ok ({ it with line := { it.line with file := v } }, r)
  else if opcode = constant.DW_LNS_set_column then do
    let (v, r) ← leb128.read_u64 r
    .ok ({ it with line := { it.line with column := v } }, r)
  else if opcode = constant.DW_LNS_negate_stmt then
    .ok ({ it with line := { it.line with statement := !it.line.statement } }, r)
  else if opcode = constant.DW_LNS_set_basic_block then
    .ok ({ it with line := { it.line with basic_block := true } }, r)
  else if opcode = constant.DW_LNS_const_add_pc then
    let op_delta := (255 - it.program.opcode_base) / it.program.line_range
    .ok (it.advance_pc op_delta, r)
  else if opcode = constant.DW_LNS_fixed_advance_pc then do
    let (d, r) ← it.program.endian.read_u16 r
    .ok ({ it with
           line := { it.line with
                     address := (it.line.address + d) % 2 ^ 64
                     operation := 0 } }, r)
  else if opcode = constant.DW_LNS_set_prologue_end then
    .ok ({ it with line := { it.line with prologue_end := true } }, r)
  else if opcode = constant.DW_LNS_set_epilogue_begin then
    .ok ({ it with line := { it.line with epilogue_begin := true } }, r)
  else if opcode = constant.DW_LNS_set_isa then do
    let (v, r) ← leb128.read_u64 r
    .ok ({ it with line := { it.line with isa := v } }, r)
  else if opcode < it.program.opcode_base then
    -- unknown standard opcode: skip its declared operand count
    let index := opcode - 1
    if index ≥ it.program.standard_opcode_lengths.length then .error .Invalid
    else do
      let (_, r) ← skipLeb128 (it.program.standard_opcode_lengths.getD index 0) r
      .ok (it, r)
  else
    .ok ({ (it.advance_special opcode) with copy := true }, r)

/-- The emission loop of src/src/line.rs `LineIterator::next` (lines
188-196): consume opcodes until one sets `copy`.  Every `next_opcode`
consumes at least one byte, so the fuel never runs out. -/
def LineIterator.next_go : Nat → LineIterator → List Nat →
    Except ReadError LineIterator
  | 0, _, _ => .error .Invalid
  | fuel + 1, it, r =>
    match it.next_opcode r with
    | .error e => .error e
    | .ok (it, r) =>
      let it := { it with data := r }
      if it.copy then .ok { it with copy := false }
      else LineIterator.next_go fuel it r

/-- src/src/line.rs `LineIterator::next` (lines 174-197): end of input
yields `None`; after an `end_sequence` row the whole register file resets,
otherwise only the per-row flags clear; then opcodes run until an emission.
The emitted row is the `line` field of the returned iterator. -/
def LineIterator.next (it : LineIterator) :
    Except ReadError (Option LineIterator) :=
  if it.data.length = 0 then .ok none
  else
    let it :=
      if it.line.sequence_end then
        { it with line := Line.new it.program.default_statement }
      else
        { it with
          line := { it.line with
                    basic_block := false
                    prologue_end := false
                    epilogue_begin := false
                    discriminator := 0 } }
    (LineIterator.next_go (it.data.length + 1) it it.data).map some

/-! Attribute round-trip machinery (for the form table of
`AttributeData::read`/`write`). -/

/-- The round-trip property of a (form, value) pair: direct encoding
re-decodes to the value consuming exactly the encoding; indirect encoding is
exactly one leading ULEB equal to the form code followed by the direct
encoding, and re-decodes through `DW_FORM_indirect` to the value. -/
def attrRoundtrip (u : UnitCommon) (form : Nat) (d : AttributeData) : Prop :=
  ∀ rest, ∃ bs,
    d.write u form false = .ok bs ∧
    AttributeData.read u form (bs ++ rest) = .ok (d, rest) ∧
    d.write u form true = .ok (leb128.write_u16 form ++ bs) ∧
    AttributeData.read u constant.DW_FORM_indirect
      ((leb128.write_u16 form ++ bs) ++ rest) = .ok (d, rest)

/-- Decoding `DW_FORM_indirect` reads the form's ULEB and then decodes
directly: the one-byte form code spends exactly the extra fuel. -/
lemma read_indirect (u : UnitCommon) (form : Nat) (d : AttributeData)
    (bs rest : List Nat) (hform : form < 128)
    (h : AttributeData.read u form (bs ++ rest) = .ok (d, rest)) :
    AttributeData.read u constant.DW_FORM_indirect
      ((leb128.write_u16 form ++ bs) ++ rest) = .ok (d, rest) := by
  rw [leb128.write_u16, write_u64_small form hform]
  have hshape : [form] ++ bs ++ rest = form :: (bs ++ rest) := by simp
  rw [hshape, AttributeData.read]
  have hlen : (form :: (bs ++ rest)).length + 1 = ((bs ++ rest).length + 1) + 1 := by
    simp
  rw [hlen, AttributeData.read_go]
  norm_num
  rw [read_u16_single form (bs ++ rest) hform, okBind]
  dsimp only
  rw [AttributeData.read] at h
  simp only [List.length_append] at h
  exact h

/-- Assembling `attrRoundtrip` from the dispatched encoder output and the
direct decoder round-trip. -/
lemma attrRoundtrip_of (u : UnitCommon) (form : Nat) (d : AttributeData)
    (bs : List Nat) (hform : form < 128)
    (hw : d.write_form u form = .ok bs)
    (hr : ∀ rest, AttributeData.read u form (bs ++ rest) = .ok (d, rest)) :
    attrRoundtrip u form d := by
  intro rest
  refine ⟨bs, ?_, hr rest, ?_, read_indirect u form d bs rest hform (hr rest)⟩
  · rw [AttributeData.write, hw]
    rfl
  · rw [AttributeData.write, hw]
    rfl

/-! Per-form round-trip lemmas. -/

lemma attr_addr (u : UnitCommon) (v : Nat)
    (h4 : u.address_size = 4 ∨ u.address_size = 8)
    (hv : v < 2 ^ (8 * u.address_size)) :
    attrRoundtrip u constant.DW_FORM_addr (.Address v) := by
  obtain ⟨bs, hw, hr⟩ := read_write_address u.endian u.address_size v h4 hv
  refine attrRoundtrip_of u _ _ bs (by norm_num) ?_ ?_
  · rw [AttributeData.write_form]
    norm_num
    exact hw
  · intro rest
    rw [AttributeData.read, AttributeData.read_go]
    norm_num
    rw [hr rest]
    rfl

lemma attr_data1 (u : UnitCommon) (v : Nat) (hv : v < 256) :
    attrRoundtrip u constant.DW_FORM_data1 (.Data1 v) := by
  refine attrRoundtrip_of u _ _ [v] (by norm_num) ?_ ?_
  · rw [AttributeData.write_form]
    norm_num [write_u8, Nat.mod_eq_of_lt hv]
  · intro rest
    rw [AttributeData.read, AttributeData.read_go]
    norm_num
    rfl

lemma attr_data2 (u : UnitCommon) (v : Nat) (hv : v < 2 ^ 16) :
    attrRoundtrip u constant.DW_FORM_data2 (.Data2 v) := by
  refine attrRoundtrip_of u _ _ (u.endian.write_u16 v) (by norm_num) ?_ ?_
  · rw [AttributeData.write_form]
    norm_num
  · intro rest
    rw [AttributeData.read, AttributeData.read_go]
    norm_num
    rw [read_write_u16 u.endian v rest hv]
    rfl

lemma attr_data4 (u : UnitCommon) (v : Nat) (hv : v < 2 ^ 32) :
    attrRoundtrip u constant.DW_FORM_data4 (.Data4 v) := by
  refine attrRoundtrip_of u _ _ (u.endian.write_u32 v) (by norm_num) ?_ ?_
  · rw [AttributeData.write_form]
    norm_num
  · intro rest
    rw [AttributeData.read, AttributeData.read_go]
    norm_num
    rw [read_write_u32 u.endian v rest hv]
    rfl

lemma attr_data8 (u : UnitCommon) (v : Nat) (hv : v < 2 ^ 64) :
    attrRoundtrip u constant.DW_FORM_data8 (.Data8 v) := by
  refine attrRoundtrip_of u _ _ (u.endian.write_u64 v) (by norm_num) ?_ ?_
  · rw [AttributeData.write_form]
    norm_num
  · intro rest
    rw [AttributeData.read, AttributeData.read_go]
    norm_num
    rw [read_write_u64 u.endian v rest hv]
    rfl

lemma attr_udata (u : UnitCommon) (v : Nat) (hv : v < 2 ^ 64) :
    attrRoundtrip u constant.DW_FORM_udata (.UData v) := by
  refine attrRoundtrip_of u _ _ (leb128.write_u64 v) (by norm_num) ?_ ?_
  · rw [AttributeData.write_form]
    norm_num
  · intro rest
    rw [AttributeData.read, AttributeData.read_go]
    norm_num
    rw [leb128.read_u64_write_u64 v rest hv]
    rfl

lemma attr_sdata (u : UnitCommon) (v : Int) (hlo : -(2 ^ 63) ≤ v)
    (hhi : v < 2 ^ 63) :
    attrRoundtrip u constant.DW_FORM_sdata (.SData v) := by
  refine attrRoundtrip_of u _ _ (leb128.write_i64 v) (by norm_num) ?_ ?_
  · rw [AttributeData.write_form]
    norm_num
  · intro rest
    rw [AttributeData.read, AttributeData.read_go]
    norm_num
    rw [leb128.read_i64_write_i64 v rest hlo hhi]
    rfl

lemma attr_flag (u : UnitCommon) (v : Bool) :
    attrRoundtrip u constant.DW_FORM_flag (.Flag v) := by
  cases v
  · refine attrRoundtrip_of u _ _ [0] (by norm_num) ?_ ?_
    · rw [AttributeData.write_form]
      norm_num [write_u8]
    · intro rest
      rw [AttributeData.read, AttributeData.read_go]
      norm_num
      rfl
  · refine attrRoundtrip_of u _ _ [1] (by norm_num) ?_ ?_
    · rw [AttributeData.write_form]
      norm_num [write_u8]
    · intro rest
      rw [AttributeData.read, AttributeData.read_go]
      norm_num
      rfl

lemma attr_flag_present (u : UnitCommon) :
    attrRoundtrip u constant.DW_FORM_flag_present (.Flag true) := by
  refine attrRoundtrip_of u _ _ [] (by norm_num) ?_ ?_
  · rw [AttributeData.write_form]
    norm_num
  · intro rest
    rw [AttributeData.read, AttributeData.read_go]
    norm_num

lemma attr_string (u : UnitCommon) (val : List Nat) (h : ∀ b ∈ val, b ≠ 0) :
    attrRoundtrip u constant.DW_FORM_string (.String val) := by
  refine attrRoundtrip_of u _ _ (val ++ write_u8 0) (by norm_num) ?_ ?_
  · rw [AttributeData.write_form]
    norm_num
  · intro rest
    rw [AttributeData.read, AttributeData.read_go]
    norm_num
    have hsh : val ++ (write_u8 0 ++ rest) = val ++ (0 :: rest) := by
      simp [write_u8]
    rw [hsh, read_string_append val rest h]
    rfl

lemma attr_strp (u : UnitCommon) (v : Nat)
    (h4 : u.offset_size = 4 ∨ u.offset_size = 8)
    (hv : v < 2 ^ (8 * u.offset_size)) :
    attrRoundtrip u constant.DW_FORM_strp (.StringOffset v) := by
  obtain ⟨bs, hw, hr⟩ := read_write_offset u.endian u.offset_size v h4 hv
  refine attrRoundtrip_of u _ _ bs (by norm_num) ?_ ?_
  · rw [AttributeData.write_form]
    norm_num
    exact hw
  · intro rest
    rw [AttributeData.read, AttributeData.read_go]
    norm_num
    rw [hr rest]
    rfl

lemma attr_sec_offset (u : UnitCommon) (v : Nat)
    (h4 : u.offset_size = 4 ∨ u.offset_size = 8)
    (hv : v < 2 ^ (8 * u.offset_size)) :
    attrRoundtrip u constant.DW_FORM_sec_offset (.SecOffset v) := by
  obtain ⟨bs, hw, hr⟩ := read_write_offset u.endian u.offset_size v h4 hv
  refine attrRoundtrip_of u _ _ bs (by norm_num) ?_ ?_
  · rw [AttributeData.write_form]
    norm_num
    exact hw
  · intro rest
    rw [AttributeData.read, AttributeData.read_go]
    norm_num
    rw [hr rest]
    rfl

lemma attr_ref1 (u : UnitCommon) (v : Nat) (hv : v < 256) :
    attrRoundtrip u constant.DW_FORM_ref1 (.Ref v) := by
  refine attrRoundtrip_of u _ _ [v] (by norm_num) ?_ ?_
  · rw [AttributeData.write_form]
    norm_num [write_u8, Nat.mod_eq_of_lt hv]
  · intro rest
    rw [AttributeData.read, AttributeData.read_go]
    norm_num
    rfl

lemma attr_ref2 (u : UnitCommon) (v : Nat) (hv : v < 2 ^ 16) :
    attrRoundtrip u constant.DW_FORM_ref2 (.Ref v) := by
  refine attrRoundtrip_of u _ _ (u.endian.write_u16 v) (by norm_num) ?_ ?_
  · rw [AttributeData.write_form]
    norm_num
  · intro rest
    rw [AttributeData.read, AttributeData.read_go]
    norm_num
    rw [read_write_u16 u.endian v rest hv]
    rfl

lemma attr_ref4 (u : UnitCommon) (v : Nat) (hv : v < 2 ^ 32) :
    attrRoundtrip u constant.DW_FORM_ref4 (.Ref v) := by
  refine attrRoundtrip_of u _ _ (u.endian.write_u32 v) (by norm_num) ?_ ?_
  · rw [AttributeData.write_form]
    norm_num
  · intro rest
    rw [AttributeData.read, AttributeData.read_go]
    norm_num
    rw [read_write_u32 u.endian v rest hv]
    rfl

lemma attr_ref8 (u : UnitCommon) (v : Nat) (hv : v < 2 ^ 64) :
    attrRoundtrip u constant.DW_FORM_ref8 (.Ref v) := by
  refine attrRoundtrip_of u _ _ (u.endian.write_u64 v) (by norm_num) ?_ ?_
  · rw [AttributeData.write_form]
    norm_num
  · intro rest
    rw [AttributeData.read, AttributeData.read_go]
    norm_num
    rw [read_write_u64 u.endian v rest hv]
    rfl

lemma attr_ref_udata (u : UnitCommon) (v : Nat) (hv : v < 2 ^ 64) :
    attrRoundtrip u constant.DW_FORM_ref_udata (.Ref v) := by
  refine attrRoundtrip_of u _ _ (leb128.write_u64 v) (by norm_num) ?_ ?_
  · rw [AttributeData.write_form]
    norm_num
  · intro rest
    rw [AttributeData.read, AttributeData.read_go]
    norm_num
    rw [leb128.read_u64_write_u64 v rest hv]
    rfl

lemma attr_ref_sig8 (u : UnitCommon) (v : Nat) (hv : v < 2 ^ 64) :
    attrRoundtrip u constant.DW_FORM_ref_sig8 (.RefSig v) := by
  refine attrRoundtrip_of u _ _ (u.endian.write_u64 v) (by norm_num) ?_ ?_
  · rw [AttributeData.write_form]
    norm_num
  · intro rest
    rw [AttributeData.read, AttributeData.read_go]
    norm_num
    rw [read_write_u64 u.endian v rest hv]
    rfl

lemma attr_block1 (u : UnitCommon) (val : List Nat) (h : val.length < 256) :
    attrRoundtrip u constant.DW_FORM_block1 (.Block val) := by
  refine attrRoundtrip_of u _ _ (write_u8 val.length ++ val) (by norm_num) ?_ ?_
  · rw [AttributeData.write_form]
    norm_num
  · intro rest
    rw [AttributeData.read, AttributeData.read_go]
    norm_num
    have hsh : write_u8 val.length ++ (val ++ rest) =
        val.length :: (val ++ rest) := by
      simp [write_u8, Nat.mod_eq_of_lt h]
    rw [hsh]
    rw [show read_u8 (val.length :: (val ++ rest)) =
      Except.ok (val.length, val ++ rest) from rfl, okBind]
    dsimp only
    rw [read_block_append val rest]
    rfl

lemma attr_block2 (u : UnitCommon) (val : List Nat) (h : val.length < 2 ^ 16) :
    attrRoundtrip u constant.DW_FORM_block2 (.Block val) := by
  refine attrRoundtrip_of u _ _ (u.endian.write_u16 val.length ++ val)
    (by norm_num) ?_ ?_
  · rw [AttributeData.write_form]
    norm_num
  · intro rest
    rw [AttributeData.read, AttributeData.read_go]
    norm_num
    rw [read_write_u16 u.endian val.length (val ++ rest) h, okBind]
    dsimp only
    rw [read_block_append val rest]
    rfl

lemma attr_block4 (u : UnitCommon) (val : List Nat) (h : val.length < 2 ^ 32) :
    attrRoundtrip u constant.DW_FORM_block4 (.Block val) := by
  refine attrRoundtrip_of u _ _ (u.endian.write_u32 val.length ++ val)
    (by norm_num) ?_ ?_
  · rw [AttributeData.write_form]
    norm_num
  · intro rest
    rw [AttributeData.read, AttributeData.read_go]
    norm_num
    rw [read_write_u32 u.endian val.length (val ++ rest) h, okBind]
    dsimp only
    rw [read_block_append val rest]
    rfl

lemma attr_block (u : UnitCommon) (val : List Nat) (h : val.length < 2 ^ 64) :
    attrRoundtrip u constant.DW_FORM_block (.Block val) := by
  refine attrRoundtrip_of u _ _ (leb128.write_u64 val.length ++ val)
    (by norm_num) ?_ ?_
  · rw [AttributeData.write_form]
    norm_num
  · intro rest
    rw [AttributeData.read, AttributeData.read_go]
    norm_num
    rw [leb128.read_u64_write_u64 val.length (val ++ rest) h, okBind]
    dsimp only
    rw [read_block_append val rest]
    rfl

lemma attr_exprloc (u : UnitCommon) (val : List Nat) (h : val.length < 2 ^ 64) :
    attrRoundtrip u constant.DW_FORM_exprloc (.ExprLoc val) := by
  refine attrRoundtrip_of u _ _ (leb128.write_u64 val.length ++ val)
    (by norm_num) ?_ ?_
  · rw [AttributeData.write_form]
    norm_num
  · intro rest
    rw [AttributeData.read, AttributeData.read_go]
    norm_num
    rw [leb128.read_u64_write_u64 val.length (val ++ rest) h, okBind]
    dsimp only
    rw [read_block_append val rest]
    rfl

lemma attr_ref_addr (u : UnitCommon) (v : Nat)
    (hcond : (u.version = 2 ∧ (u.address_size = 4 ∨ u.address_size = 8) ∧
        v < 2 ^ (8 * u.address_size)) ∨
      (u.version ≠ 2 ∧ (u.offset_size = 4 ∨ u.offset_size = 8) ∧
        v < 2 ^ (8 * u.offset_size))) :
    attrRoundtrip u constant.DW_FORM_ref_addr (.RefAddress v) := by
  rcases hcond with ⟨hv2, h4, hv⟩ | ⟨hv2, h4, hv⟩
  · obtain ⟨bs, hw, hr⟩ := read_write_address u.endian u.address_size v h4 hv
    refine attrRoundtrip_of u _ _ bs (by norm_num) ?_ ?_
    · rw [AttributeData.write_form]
      norm_num
      rw [if_pos hv2]
      exact hw
    · intro rest
      rw [AttributeData.read, AttributeData.read_go]
      norm_num
      rw [if_pos hv2, hr rest]
      rfl
  · obtain ⟨bs, hw, hr⟩ := read_write_offset u.endian u.offset_size v h4 hv
    refine attrRoundtrip_of u _ _ bs (by norm_num) ?_ ?_
    · rw [AttributeData.write_form]
      norm_num
      rw [if_neg hv2]
      exact hw
    · intro rest
      rw [AttributeData.read, AttributeData.read_go]
      norm_num
      rw [if_neg hv2, hr rest]
      rfl

/-! Claim theorems. -/

/-- C1: For every (form, value) pair in the attribute form table, encoding
the value with `AttributeData::write` and decoding the bytes with
`AttributeData::read` (for the same unit parameters) yields the original
value, both for direct and for indirect encoding; indirect encoding writes
exactly one leading ULEB128 equal to the form code before the
directly-encoded value.  (Each conjunct quantifies the values that fit the
form's encoded width; `attrRoundtrip` packages the direct and indirect
round-trips and the indirect prefix shape.) -/
theorem attribute_form_roundtrip :
    (∀ (u : UnitCommon) (v : Nat), (u.address_size = 4 ∨ u.address_size = 8) →
      v < 2 ^ (8 * u.address_size) →
      attrRoundtrip u constant.DW_FORM_addr (.Address v)) ∧
    (∀ (u : UnitCommon) (val : List Nat), val.length < 256 →
      attrRoundtrip u constant.DW_FORM_block1 (.Block val)) ∧
    (∀ (u : UnitCommon) (val : List Nat), val.length < 2 ^ 16 →
      attrRoundtrip u constant.DW_FORM_block2 (.Block val)) ∧
    (∀ (u : UnitCommon) (val : List Nat), val.length < 2 ^ 32 →
      attrRoundtrip u constant.DW_FORM_block4 (.Block val)) ∧
    (∀ (u : UnitCommon) (val : List Nat), val.length < 2 ^ 64 →
      attrRoundtrip u constant.DW_FORM_block (.Block val)) ∧
    (∀ (u : UnitCommon) (v : Nat), v < 256 →
      attrRoundtrip u constant.DW_FORM_data1 (.Data1 v)) ∧
    (∀ (u : UnitCommon) (v : Nat), v < 2 ^ 16 →
      attrRoundtrip u constant.DW_FORM_data2 (.Data2 v)) ∧
    (∀ (u : UnitCommon) (v : Nat), v < 2 ^ 32 →
      attrRoundtrip u constant.DW_FORM_data4 (.Data4 v)) ∧
    (∀ (u : UnitCommon) (v : Nat), v < 2 ^ 64 →
      attrRoundtrip u constant.DW_FORM_data8 (.Data8 v)) ∧
    (∀ (u : UnitCommon) (v : Nat), v < 2 ^ 64 →
      attrRoundtrip u constant.DW_FORM_udata (.UData v)) ∧
    (∀ (u : UnitCommon) (v : Int), -(2 ^ 63) ≤ v → v < 2 ^ 63 →
      attrRoundtrip u constant.DW_FORM_sdata (.SData v)) ∧
    (∀ (u : UnitCommon) (v : Bool),
      attrRoundtrip u constant.DW_FORM_flag (.Flag v)) ∧
    (∀ (u : UnitCommon),
      attrRoundtrip u constant.DW_FORM_flag_present (.Flag true)) ∧
    (∀ (u : UnitCommon) (val : List Nat), (∀ b ∈ val, b ≠ 0) →
      attrRoundtrip u constant.DW_FORM_string (.String val)) ∧
    (∀ (u : UnitCommon) (v : Nat), (u.offset_size = 4 ∨ u.offset_size = 8) →
      v < 2 ^ (8 * u.offset_size) →
      attrRoundtrip u constant.DW_FORM_strp (.StringOffset v)) ∧
    (∀ (u : UnitCommon) (v : Nat), v < 256 →
      attrRoundtrip u constant.DW_FORM_ref1 (.Ref v)) ∧
    (∀ (u : UnitCommon) (v : Nat), v < 2 ^ 16 →
      attrRoundtrip u constant.DW_FORM_ref2 (.Ref v)) ∧
    (∀ (u : UnitCommon) (v : Nat), v < 2 ^ 32 →
      attrRoundtrip u constant.DW_FORM_ref4 (.Ref v)) ∧
    (∀ (u : UnitCommon) (v : Nat), v < 2 ^ 64 →
      attrRoundtrip u constant.DW_FORM_ref8 (.Ref v)) ∧
    (∀ (u : UnitCommon) (v : Nat), v < 2 ^ 64 →
      attrRoundtrip u constant.DW_FORM_ref_udata (.Ref v)) ∧
    (∀ (u : UnitCommon) (v : Nat),
      (u.version = 2 ∧ (u.address_size = 4 ∨ u.address_size = 8) ∧
          v < 2 ^ (8 * u.address_size)) ∨
        (u.version ≠ 2 ∧ (u.offset_size = 4 ∨ u.offset_size = 8) ∧
          v < 2 ^ (8 * u.offset_size)) →
      attrRoundtrip u constant.DW_FORM_ref_addr (.RefAddress v)) ∧
    (∀ (u : UnitCommon) (v : Nat), v < 2 ^ 64 →
      attrRoundtrip u constant.DW_FORM_ref_sig8 (.RefSig v)) ∧
    (∀ (u : UnitCommon) (v : Nat), (u.offset_size = 4 ∨ u.offset_size = 8) →
      v < 2 ^ (8 * u.offset_size) →
      attrRoundtrip u constant.DW_FORM_sec_offset (.SecOffset v)) ∧
    (∀ (u : UnitCommon) (val : List Nat), val.length < 2 ^ 64 →
      attrRoundtrip u constant.DW_FORM_exprloc (.ExprLoc val)) :=
  ⟨attr_addr, attr_block1, attr_block2, attr_block4, attr_block, attr_data1,
   attr_data2, attr_data4, attr_data8, attr_udata, attr_sdata, attr_flag,
   attr_flag_present, attr_string, attr_strp, attr_ref1, attr_ref2, attr_ref4,
   attr_ref8, attr_ref_udata, attr_ref_addr, attr_ref_sig8, attr_sec_offset,
   attr_exprloc⟩

/-- The unit used by the attribute round-trip witness (DWARF32, version 4,
little endian). -/
def c1Unit : UnitCommon :=
  { offset := 0, endian := .little, version := 4, address_size := 4,
    offset_size := 4, abbrev_offset := 0, data := [] }

/-- Witness for C1: the scenario-4 instance `DW_FORM_ref4 = 0x01234567`
round-trips directly and indirectly, with the indirect encoding prepending
the single ULEB byte 0x13. -/
theorem attribute_form_roundtrip_witness :
    ((0x01234567 : Nat) < 2 ^ 32 ∧
      attrRoundtrip c1Unit constant.DW_FORM_ref4 (.Ref 0x01234567)) ∧
    ((AttributeData.Ref 0x01234567).write c1Unit constant.DW_FORM_ref4 false =
      .ok [0x67, 0x45, 0x23, 0x01]) ∧
    ((AttributeData.Ref 0x01234567).write c1Unit constant.DW_FORM_ref4 true =
      .ok [0x13, 0x67, 0x45, 0x23, 0x01]) :=
  ⟨⟨by norm_num,
    attribute_form_roundtrip.2.2.2.2.2.2.2.2.2.2.2.2.2.2.2.2.2.1 c1Unit
      0x01234567 (by norm_num)⟩,
   by rfl,
   by rw [AttributeData.write, write_u16_small _ (by norm_num)]; rfl⟩

/-- C5: LEB128 encode/decode round-trips for `u64` (`write_u64`/`read_u64`),
`i64` (`write_i64`/`read_i64`) and `u16` (`write_u16`/`read_u16`): decoding
the encoding returns the original value and consumes exactly the encoded
bytes. -/
theorem leb128_roundtrip :
    (∀ (x : Nat) (rest : List Nat), x < 2 ^ 64 →
      leb128.read_u64 (leb128.write_u64 x ++ rest) = .ok (x, rest)) ∧
    (∀ (x : Int) (rest : List Nat), -(2 ^ 63) ≤ x → x < 2 ^ 63 →
      leb128.read_i64 (leb128.write_i64 x ++ rest) = .ok (x, rest)) ∧
    (∀ (x : Nat) (rest : List Nat), x < 2 ^ 16 →
      leb128.read_u16 (leb128.write_u16 x ++ rest) = .ok (x, rest)) :=
  ⟨leb128.read_u64_write_u64, leb128.read_i64_write_i64,
   leb128.read_u16_write_u16⟩

/-- Witness for C5: the round-trips at 624485 (u64), -123456 (i64) and
12857 (u16). -/
theorem leb128_roundtrip_witness :
    ((624485 : Nat) < 2 ^ 64 ∧
      leb128.read_u64 (leb128.write_u64 624485 ++ []) = .ok (624485, [])) ∧
    (-(2 ^ 63) ≤ (-123456 : Int) ∧ (-123456 : Int) < 2 ^ 63 ∧
      leb128.read_i64 (leb128.write_i64 (-123456) ++ []) =
        .ok (-123456, [])) ∧
    ((12857 : Nat) < 2 ^ 16 ∧
      leb128.read_u16 (leb128.write_u16 12857 ++ []) = .ok (12857, [])) :=
  ⟨⟨by norm_num, leb128_roundtrip.1 624485 [] (by norm_num)⟩,
   ⟨by norm_num, by norm_num,
    leb128_roundtrip.2.1 (-123456) [] (by norm_num) (by norm_num)⟩,
   ⟨by norm_num, leb128_roundtrip.2.2 12857 [] (by norm_num)⟩⟩

/-- C6: `leb128::read_u64` returns `Overflow` exactly when nine continuation
bytes are followed by a tenth byte (the byte read at shift 63) that is
neither 0x00 nor 0x01, and `leb128::read_i64` returns `Overflow` exactly
when that byte is neither 0x00 nor 0x7f; in particular eleven 0x80 bytes
followed by 0xFF overflow as u64 (the tenth byte, 0x80, already trips the
check). -/
theorem leb128_overflow :
    (∀ r : List Nat, leb128.read_u64 r = .error .Overflow ↔
      (9 < r.length ∧ (∀ i, i < 9 → r.getD i 0 &&& 0x80 ≠ 0) ∧
        r.getD 9 0 ≠ 0x00 ∧ r.getD 9 0 ≠ 0x01)) ∧
    (∀ r : List Nat, leb128.read_i64 r = .error .Overflow ↔
      (9 < r.length ∧ (∀ i, i < 9 → r.getD i 0 &&& 0x80 ≠ 0) ∧
        r.getD 9 0 ≠ 0x00 ∧ r.getD 9 0 ≠ 0x7f)) ∧
    leb128.read_u64 (List.replicate 11 0x80 ++ [0xFF]) = .error .Overflow := by
  refine ⟨fun r => ?_, fun r => ?_, by rfl⟩
  · rw [leb128.read_u64]
    exact leb128.read_u64_go_overflow 9 (by norm_num) r 0
  · rw [leb128.read_i64]
    exact leb128.read_i64_go_overflow 9 (by norm_num) r 0

/-- C2: a well-formed DWARF32 compilation unit (offset_size 4, version in
2..=4, in-range header fields) written by `CompilationUnit::write` re-decodes
via `CompilationUnit::read` into a unit with identical header fields
(version, address_size, offset_size, abbrev_offset) and byte-identical DIE
body, consuming the whole encoding; and the concrete version-4 unit with
abbrev_offset 0x12, address_size 4 and body [0x01,0x23,0x45,0x67] encodes
little-endian to exactly the listed 15 bytes. -/
theorem unit_roundtrip :
    (∀ (u : CompilationUnit) (offset : Nat),
      u.common.offset_size = 4 →
      2 ≤ u.common.version → u.common.version ≤ 4 →
      u.common.abbrev_offset < 2 ^ 32 →
      u.common.address_size < 256 →
      7 + u.common.data.length < 0xfffffff0 →
      ∃ bs, u.write = .ok bs ∧
        CompilationUnit.read bs offset u.common.endian =
          .ok ({ common := { u.common with offset := offset } }, [])) ∧
    CompilationUnit.write
        { common := { offset := 0, endian := .little, version := 4,
                      address_size := 4, offset_size := 4,
                      abbrev_offset := 0x12,
                      data := [0x01, 0x23, 0x45, 0x67] } } =
      .ok [0x0b, 0x00, 0x00, 0x00, 0x04, 0x00, 0x12, 0x00, 0x00, 0x00,
           0x04, 0x01, 0x23, 0x45, 0x67] := by
  constructor
  · rintro ⟨⟨o0, e, ver, as_, os, ab, data⟩⟩ offset h4 hv2 hv4 hab has hlen
    dsimp only at h4 hv2 hv4 hab has hlen
    subst h4
    have hlen32 : 7 + data.length < 2 ^ 32 := by
      have : (0xfffffff0 : Nat) < 2 ^ 32 := by norm_num
      omega
    refine ⟨e.write_u32 (7 + data.length) ++ e.write_u16 ver ++
      e.write_u32 ab ++ [as_ % 256] ++ data, ?_, ?_⟩
    · rw [CompilationUnit.write]
      dsimp only [CompilationUnit.base_header_len]
      rw [UnitCommon.write]
      dsimp only
      rw [if_neg (by omega)]
      dsimp only [write_offset, write_u8]
    · have hRlen : (e.write_u16 ver ++ (e.write_u32 ab ++
          ((as_ % 256) :: data))).length = 7 + data.length := by
        simp [Endian.write_u16, Endian.write_u32, emit_length]
        omega
      simp only [List.append_assoc, List.singleton_append]
      rw [CompilationUnit.read, UnitCommon.read, read_initial_length,
        read_write_u32 e (7 + data.length) _ hlen32]
      dsimp only
      rw [if_neg (by omega), if_neg (by omega), if_neg (by omega)]
      dsimp only
      rw [show (e.write_u16 ver ++ (e.write_u32 ab ++
          ((as_ % 256) :: data))).take (7 + data.length) =
          e.write_u16 ver ++ (e.write_u32 ab ++ ((as_ % 256) :: data)) from by
        rw [← hRlen]; exact List.take_length _]
      rw [show (e.write_u16 ver ++ (e.write_u32 ab ++
          ((as_ % 256) :: data))).drop (7 + data.length) = [] from by
        rw [← hRlen]; exact List.drop_length _]
      rw [read_write_u16 e ver _ (by omega)]
      dsimp only
      rw [if_neg (by omega)]
      dsimp only [read_offset]
      rw [read_write_u32 e ab _ hab]
      dsimp only [read_u8]
      rw [Nat.mod_eq_of_lt has]
  · rfl

/-- Witness for C2: the general round-trip applied to the concrete DWARF32
test unit, checking the read-back result. -/
theorem unit_roundtrip_witness :
    ∃ bs,
      CompilationUnit.write
          { common := { offset := 0, endian := .little, version := 4,
                        address_size := 4, offset_size := 4,
                        abbrev_offset := 0x12,
                        data := [0x01, 0x23, 0x45, 0x67] } } = .ok bs ∧
      CompilationUnit.read bs 99 Endian.little =
        .ok ({ common := { offset := 99, endian := .little, version := 4,
                           address_size := 4, offset_size := 4,
                           abbrev_offset := 0x12,
                           data := [0x01, 0x23, 0x45, 0x67] } }, []) :=
  unit_roundtrip.1
    { common := { offset := 0, endian := .little, version := 4,
                  address_size := 4, offset_size := 4, abbrev_offset := 0x12,
                  data := [0x01, 0x23, 0x45, 0x67] } }
    99 rfl (by norm_num) (by norm_num) (by norm_num) (by norm_num)
    (by norm_num)

/-- C7: unit framing via the initial length.  (a) A first u32 of 0xFFFFFFFF
makes the next u64 the length with offset_size 8 (Invalid when the length
exceeds the remaining input); (b) a first u32 below 0xFFFFFFF0 is itself the
length with offset_size 4 (Invalid when it exceeds the remaining input);
(c) a first u32 in [0xFFFFFFF0, 0xFFFFFFFE] is Unsupported; (d) framing
errors propagate unchanged through `UnitCommon::read`; (e) a successful
`UnitCommon::read` takes its offset_size from the framing and leaves exactly
the bytes after the declared length. -/
theorem unit_framing :
    (∀ (e : Endian) (len : Nat) (rest : List Nat), len < 2 ^ 64 →
      read_initial_length (e.write_u32 0xffffffff ++ e.write_u64 len ++ rest)
          e =
        if len > rest.length then .error .Invalid
        else .ok ((8, len), rest)) ∧
    (∀ (e : Endian) (len32 : Nat) (rest : List Nat), len32 < 0xfffffff0 →
      read_initial_length (e.write_u32 len32 ++ rest) e =
        if len32 > rest.length then .error .Invalid
        else .ok ((4, len32), rest)) ∧
    (∀ (e : Endian) (len32 : Nat) (rest : List Nat),
      0xfffffff0 ≤ len32 → len32 ≤ 0xfffffffe →
      read_initial_length (e.write_u32 len32 ++ rest) e =
        .error .Unsupported) ∧
    (∀ (r : List Nat) (offset : Nat) (e : Endian) (err : ReadError),
      read_initial_length r e = .error err →
      UnitCommon.read r offset e = .error err) ∧
    (∀ (r : List Nat) (offset : Nat) (e : Endian) (u : UnitCommon)
        (data rest : List Nat),
      UnitCommon.read r offset e = .ok ((u, data), rest) →
      ∃ (len : Nat) (r2 : List Nat),
        read_initial_length r e = .ok ((u.offset_size, len), r2) ∧
        rest = r2.drop len) := by
  refine ⟨fun e len rest hlen => ?_, fun e len32 rest h32 => ?_,
    fun e len32 rest hlo hhi => ?_, fun r offset e err h => ?_,
    fun r offset e u data rest h => ?_⟩
  · rw [read_initial_length, List.append_assoc,
      read_write_u32 e 0xffffffff _ (by norm_num)]
    dsimp only
    rw [if_pos rfl, read_write_u64 e len rest hlen]
  · rw [read_initial_length, read_write_u32 e len32 _ (by omega)]
    dsimp only
    rw [if_neg (by omega), if_neg (by omega)]
  · rw [read_initial_length, read_write_u32 e len32 _ (by omega)]
    dsimp only
    rw [if_neg (by omega), if_pos (by omega)]
  · rw [UnitCommon.read, h]
  · rw [UnitCommon.read] at h
    cases hx : read_initial_length r e with
    | error err => rw [hx] at h; exact absurd h (by simp)
    | ok p =>
      obtain ⟨⟨os, len⟩, r2⟩ := p
      rw [hx] at h
      dsimp only at h
      cases h16 : e.read_u16 (r2.take len) with
      | error err => rw [h16] at h; exact absurd h (by simp)
      | ok q =>
        obtain ⟨version, d1⟩ := q
        rw [h16] at h
        dsimp only at h
        by_cases hver : version < 2 ∨ version > 4
        · rw [if_pos hver] at h; exact absurd h (by simp)
        · rw [if_neg hver] at h
          cases hoff : read_offset d1 e os with
          | error err => rw [hoff] at h; exact absurd h (by simp)
          | ok q2 =>
            obtain ⟨ab, d2⟩ := q2
            rw [hoff] at h
            dsimp only at h
            cases h8 : read_u8 d2 with
            | error err => rw [h8] at h; exact absurd h (by simp)
            | ok q3 =>
              obtain ⟨addr, d3⟩ := q3
              rw [h8] at h
              dsimp only at h
              rw [Except.ok.injEq, Prod.mk.injEq, Prod.mk.injEq] at h
              obtain ⟨⟨hu, -⟩, hrest⟩ := h
              refine ⟨len, r2, ?_, hrest.symm⟩
              rw [← hu]

/-- Witness for C7: the DWARF64 escape at length 1 with one remaining byte,
the DWARF32 framing at length 0, the reserved value 0xFFFFFFF0, an Eof
framing error propagating through `UnitCommon::read`, and the offset_size of
a successfully read concrete unit. -/
theorem unit_framing_witness :
    ((1 : Nat) < 2 ^ 64 ∧
      read_initial_length
          (Endian.little.write_u32 0xffffffff ++ Endian.little.write_u64 1 ++
            [7]) Endian.little =
        if 1 > [7].length then .error .Invalid else .ok ((8, 1), [7])) ∧
    ((0xfffffff0 : Nat) ≤ 0xfffffff0 ∧
      read_initial_length (Endian.little.write_u32 0xfffffff0 ++ [])
          Endian.little = .error .Unsupported) ∧
    (read_initial_length [] Endian.little = .error .Eof ∧
      UnitCommon.read [] 0 Endian.little = .error .Eof) ∧
    (∃ (len : Nat) (r2 : List Nat),
      read_initial_length
          [0x0b, 0x00, 0x00, 0x00, 0x04, 0x00, 0x12, 0x00, 0x00, 0x00,
           0x04, 0x01, 0x23, 0x45, 0x67] Endian.little =
        .ok (((4 : Nat), len), r2) ∧ ([] : List Nat) = r2.drop len) :=
  ⟨⟨by norm_num, unit_framing.1 .little 1 [7] (by norm_num)⟩,
   ⟨le_refl _, unit_framing.2.2.1 .little 0xfffffff0 [] (le_refl _)
     (by norm_num)⟩,
   ⟨rfl, unit_framing.2.2.2.1 [] 0 .little .Eof rfl⟩,
   unit_framing.2.2.2.2
     [0x0b, 0x00, 0x00, 0x00, 0x04, 0x00, 0x12, 0x00, 0x00, 0x00,
      0x04, 0x01, 0x23, 0x45, 0x67] 0 Endian.little
     { offset := 0, endian := .little, version := 4, address_size := 4,
       offset_size := 4, abbrev_offset := 0x12, data := [] }
     [0x01, 0x23, 0x45, 0x67] [] (by rfl)⟩

/-- A version-2 unit with distinct address and offset sizes, separating the
two `DW_FORM_ref_addr` interpretations. -/
def c4Unit2 : UnitCommon :=
  { offset := 0, endian := .little, version := 2, address_size := 8,
    offset_size := 4, abbrev_offset := 0, data := [] }

/-- The same unit at version 3. -/
def c4Unit3 : UnitCommon :=
  { c4Unit2 with version := 3 }

/-- C4: on the die.rs revision (`AttributeData::read`), `DW_FORM_ref_addr`
consumes offset_size bytes for versions 3+ and address_size bytes for
version 2; but the read.rs revision of the same match arm (lines 407-410,
embedded as `refAddrReadRS`) ignores the version and always consumes
offset_size bytes, so on a version-2 unit with address_size 8 and
offset_size 4 the two revisions disagree on the same input. -/
theorem ref_addr_version_dependence :
    AttributeData.read c4Unit2 constant.DW_FORM_ref_addr
        [1, 2, 3, 4, 5, 6, 7, 8] =
      .ok (.RefAddress 0x0807060504030201, []) ∧
    AttributeData.read c4Unit3 constant.DW_FORM_ref_addr
        [1, 2, 3, 4, 5, 6, 7, 8] =
      .ok (.RefAddress 0x04030201, [5, 6, 7, 8]) ∧
    refAddrReadRS c4Unit2 [1, 2, 3, 4, 5, 6, 7, 8] =
      .ok (.RefAddress 0x04030201, [5, 6, 7, 8]) ∧
    AttributeData.read c4Unit2 constant.DW_FORM_ref_addr
        [1, 2, 3, 4, 5, 6, 7, 8] ≠
      refAddrReadRS c4Unit2 [1, 2, 3, 4, 5, 6, 7, 8] := by
  refine ⟨by rfl, by rfl, by rfl, ?_⟩
  intro h
  rw [show AttributeData.read c4Unit2 constant.DW_FORM_ref_addr
        [1, 2, 3, 4, 5, 6, 7, 8] =
      .ok (.RefAddress 0x0807060504030201, []) from rfl,
    show refAddrReadRS c4Unit2 [1, 2, 3, 4, 5, 6, 7, 8] =
      .ok (.RefAddress 0x04030201, [5, 6, 7, 8]) from rfl] at h
  simp at h

/-- The unit used by the sibling-scan trace. -/
def c3Unit : UnitCommon :=
  { offset := 0, endian := .little, version := 4, address_size := 4,
    offset_size := 4, abbrev_offset := 0, data := [] }

/-- Abbreviations for the sibling-scan trace: code 1 has children, code 2
does not; both carry one `DW_FORM_string` name and no sibling pointer. -/
def c3Abbrev : AbbrevHash :=
  [{ code := 1, tag := constant.DW_TAG_namespace, children := true,
     attributes := [{ at_ := constant.DW_AT_name,
                      form := constant.DW_FORM_string }] },
   { code := 2, tag := constant.DW_TAG_namespace, children := false,
     attributes := [{ at_ := constant.DW_AT_name,
                      form := constant.DW_FORM_string }] }]

/-- DIE stream for the trace: A(children) [ B(children) [ C ] null, D ]
null, E — so E at offset 14 is A's sibling and reaching it requires
null-entry depth tracking through B's and A's subtrees. -/
def c3Stream : List Nat :=
  [1, 65, 0, 1, 66, 0, 2, 67, 0, 0, 2, 68, 0, 0, 2, 69, 0]

/-- The root entry A as decoded from offset 0. -/
def c3DieA : Die :=
  { offset := 0, code := 1, tag := constant.DW_TAG_namespace,
    children := true,
    attributes := [{ at_ := constant.DW_AT_name, data := .String [65] }] }

/-- The iterator state after reading A. -/
def c3State : DieIterator :=
  { r := c3Stream.drop 3, offset := 3, entry := c3DieA }

/-- A's sibling E at offset 14. -/
def c3DieE : Die :=
  { offset := 14, code := 2, tag := constant.DW_TAG_namespace,
    children := false,
    attributes := [{ at_ := constant.DW_AT_name, data := .String [69] }] }

/-- C3: `DieIterator::next_sibling` returns the next entry at the current
depth: (1) with no children it is exactly `next()`; (2) with children and a
`DW_AT_sibling` whose unit-relative target is strictly ahead of the cursor
and within the remaining bytes, it is `next()` from the jumped state — the
cursor moves to the sibling offset, consuming exactly the bytes in
[current_offset, sibling_offset); (3) without a sibling pointer the subtree
is skipped by linear scanning with null-entry depth tracking, shown on the
nested trace: from A's state the scan crosses B, C, two nulls and D and
returns A's sibling E. -/
theorem die_next_sibling :
    (∀ (u : UnitCommon) (ab : AbbrevHash) (st : DieIterator),
      st.entry.children = false →
      DieIterator.next_sibling u ab st = DieIterator.next u ab st) ∧
    (∀ (u : UnitCommon) (ab : AbbrevHash) (st : DieIterator),
      st.entry.children = true →
      siblingOffset st.entry.attributes u.offset > st.offset →
      siblingOffset st.entry.attributes u.offset - st.offset ≤
        st.r.length →
      DieIterator.next_sibling u ab st =
        DieIterator.next u ab
          { r := st.r.drop
              (siblingOffset st.entry.attributes u.offset - st.offset)
            offset := siblingOffset st.entry.attributes u.offset
            entry := Die.null 0 }) ∧
    (DieIterator.next c3Unit c3Abbrev (DieIterator.new c3Stream 0) =
      .ok (some c3DieA, c3State)) ∧
    (DieIterator.next_sibling c3Unit c3Abbrev c3State =
      .ok (some c3DieE, { r := [], offset := 17, entry := c3DieE })) := by
  refine ⟨fun u ab st h => ?_, fun u ab st h hgt hle => ?_, by rfl, by rfl⟩
  · rw [DieIterator.next_sibling, DieIterator.next_sibling_go]
    simp only [h, Bool.false_eq_true, if_false]
    cases hn : DieIterator.next u ab st with
    | error err => rfl
    | ok p =>
      obtain ⟨oe, st2⟩ := p
      cases oe with
      | none => rfl
      | some e =>
        dsimp only
        rw [if_pos le_rfl]
  · rw [DieIterator.next_sibling, DieIterator.next_sibling_go]
    simp only [h, if_true]
    rw [if_pos hgt, if_pos hle]
    have hd : (0 : Int) + 1 - 1 = 0 := by norm_num
    rw [hd]
    dsimp only
    cases hn : DieIterator.next u ab
        { r := st.r.drop
            (siblingOffset st.entry.attributes u.offset - st.offset)
          offset := siblingOffset st.entry.attributes u.offset
          entry := Die.null 0 } with
    | error err => rfl
    | ok p =>
      obtain ⟨oe, st2⟩ := p
      cases oe with
      | none => rfl
      | some e =>
        dsimp only
        rw [if_pos le_rfl]

/-- Witness for C3: the no-children clause at a concrete leaf state, and the
sibling-pointer jump on a concrete entry whose `DW_AT_sibling` is `Ref 3`
(target offset 3, one 0-null byte remaining there). -/
theorem die_next_sibling_witness :
    ((DieIterator.next_sibling c3Unit c3Abbrev
        { r := [0], offset := 3, entry := c3DieE } =
      DieIterator.next c3Unit c3Abbrev
        { r := [0], offset := 3, entry := c3DieE })) ∧
    (DieIterator.next_sibling c3Unit c3Abbrev
        { r := [7, 7, 0], offset := 0,
          entry := { c3DieA with
            attributes := [{ at_ := constant.DW_AT_sibling,
                             data := .Ref 2 }] } } =
      DieIterator.next c3Unit c3Abbrev
        { r := [0], offset := 2, entry := Die.null 0 }) :=
  ⟨die_next_sibling.1 c3Unit c3Abbrev
    { r := [0], offset := 3, entry := c3DieE } rfl,
   die_next_sibling.2.1 c3Unit c3Abbrev
    { r := [7, 7, 0], offset := 0,
      entry := { c3DieA with
        attributes := [{ at_ := constant.DW_AT_sibling,
                         data := .Ref 2 }] } }
    rfl (by norm_num [siblingOffset, c3Unit, constant.DW_AT_sibling])
    (by norm_num [siblingOffset, c3Unit, constant.DW_AT_sibling])⟩

/-- C8 (amended): the dispatcher treats an opcode as special only when it is
at least 13 (past the named standard opcodes) and at least opcode_base; such
an opcode runs `advance_special` and emits a row, and `advance_special`
computes adj = opcode - opcode_base, advances the PC by adj / line_range
with the VLIW rule (new_op = op_index + op_delta; address +=
address_step * (new_op / operation_range); op_index = new_op %
operation_range, sums wrapping mod 2^64), and adds line_base +
(adj mod line_range) to the line register wrapping as u64.  (The original
claim's "every opcode >= opcode_base" is wrong when opcode_base <= 12: those
opcodes still dispatch as the named standard opcodes.) -/
theorem line_special_opcode :
    (∀ (it : LineIterator) (opcode : Nat) (r : List Nat),
      13 ≤ opcode → it.program.opcode_base ≤ opcode →
      it.next_opcode (opcode :: r) =
        .ok ({ it.advance_special opcode with copy := true }, r)) ∧
    (∀ (it : LineIterator) (opcode : Nat),
      (it.advance_special opcode).line.line =
        (it.line.line + u64ofInt (it.program.line_base +
          (((opcode - it.program.opcode_base) % it.program.line_range : Nat) :
            Int))) % 2 ^ 64 ∧
      (it.advance_special opcode).line.operation =
        ((it.line.operation + (opcode - it.program.opcode_base) /
            it.program.line_range) % 2 ^ 64) % it.program.operation_range ∧
      (it.advance_special opcode).line.address =
        (it.line.address + it.program.address_step *
          (((it.line.operation + (opcode - it.program.opcode_base) /
              it.program.line_range) % 2 ^ 64) /
            it.program.operation_range)) % 2 ^ 64 ∧
      (it.advance_special opcode).copy = it.copy) := by
  constructor
  · intro it opcode r h13 hbase
    rw [LineIterator.next_opcode]
    simp only [read_u8]
    rw [okBind]
    dsimp only
    rw [if_neg (show ¬opcode = constant.DW_LNS_extended from by
      simp only [constant.DW_LNS_extended]; omega)]
    rw [if_neg (show ¬opcode = constant.DW_LNS_copy from by
      simp only [constant.DW_LNS_copy]; omega)]
    rw [if_neg (show ¬opcode = constant.DW_LNS_advance_pc from by
      simp only [constant.DW_LNS_advance_pc]; omega)]
    rw [if_neg (show ¬opcode = constant.DW_LNS_advance_line from by
      simp only [constant.DW_LNS_advance_line]; omega)]
    rw [if_neg (show ¬opcode = constant.DW_LNS_set_file from by
      simp only [constant.DW_LNS_set_file]; omega)]
    rw [if_neg (show ¬opcode = constant.DW_LNS_set_column from by
      simp only [constant.DW_LNS_set_column]; omega)]
    rw [if_neg (show ¬opcode = constant.DW_LNS_negate_stmt from by
      simp only [constant.DW_LNS_negate_stmt]; omega)]
    rw [if_neg (show ¬opcode = constant.DW_LNS_set_basic_block from by
      simp only [constant.DW_LNS_set_basic_block]; omega)]
    rw [if_neg (show ¬opcode = constant.DW_LNS_const_add_pc from by
      simp only [constant.DW_LNS_const_add_pc]; omega)]
    rw [if_neg (show ¬opcode = constant.DW_LNS_fixed_advance_pc from by
      simp only [constant.DW_LNS_fixed_advance_pc]; omega)]
    rw [if_neg (show ¬opcode = constant.DW_LNS_set_prologue_end from by
      simp only [constant.DW_LNS_set_prologue_end]; omega)]
    rw [if_neg (show ¬opcode = constant.DW_LNS_set_epilogue_begin from by
      simp only [constant.DW_LNS_set_epilogue_begin]; omega)]
    rw [if_neg (show ¬opcode = constant.DW_LNS_set_isa from by
      simp only [constant.DW_LNS_set_isa]; omega)]
    rw [if_neg (show ¬opcode < it.program.opcode_base from by omega)]
  · intro it opcode
    exact ⟨rfl, rfl, rfl, rfl⟩

/-- The line program of the C8 counterexample: opcode_base 1 makes every
opcode nominally "special" by the claim's criterion, including opcode 1. -/
def c8Program : LineProgram :=
  { offset := 0, endian := .little, version := 2, address_size := 8,
    offset_size := 4, address_step := 1, operation_range := 1,
    default_statement := true, line_base := -5, line_range := 14,
    opcode_base := 1, standard_opcode_lengths := [],
    include_directories := [[]], files := [FileEntry.default], data := [1] }

/-- The freshly initialized interpreter over `c8Program`. -/
def c8It : LineIterator := LineIterator.new c8Program

/-- Counterexample for C8: with opcode_base 1, opcode 1 satisfies the
claim's "opcode >= opcode_base" criterion, but the interpreter dispatches it
as DW_LNS_copy (registers unchanged, line stays 1) instead of running
advance_special (which would set line to (1 + (2^64 - 5)) % 2^64 =
2^64 - 4). -/
theorem line_special_opcode_counterexample :
    c8It.program.opcode_base ≤ 1 ∧
    c8It.next_opcode [1] = .ok ({ c8It with copy := true }, []) ∧
    ({ c8It with copy := true }).line.line = 1 ∧
    ({ c8It.advance_special 1 with copy := true }).line.line = 2 ^ 64 - 4 ∧
    c8It.next_opcode [1] ≠
      .ok ({ c8It.advance_special 1 with copy := true }, []) := by
  refine ⟨by norm_num [c8It, c8Program, LineIterator.new], by rfl, by rfl,
    by decide, ?_⟩
  intro h
  rw [show c8It.next_opcode [1] = .ok ({ c8It with copy := true }, [])
    from rfl] at h
  rw [Except.ok.injEq, Prod.mk.injEq] at h
  have hline : ({ c8It with copy := true } : LineIterator).line.line =
      ({ c8It.advance_special 1 with copy := true } : LineIterator).line.line := by
    rw [h.1]
  rw [show ({ c8It with copy := true } : LineIterator).line.line = 1 from rfl,
    show ({ c8It.advance_special 1 with copy := true } :
      LineIterator).line.line = 2 ^ 64 - 4 from by decide] at hline
  norm_num at hline

/-- Witness for C8: opcode 13 on the concrete interpreter dispatches to
`advance_special` with an emitted row. -/
theorem line_special_opcode_witness :
    ((13 : Nat) ≤ 13 ∧ c8It.program.opcode_base ≤ 13) ∧
    c8It.next_opcode (13 :: [9]) =
      .ok ({ c8It.advance_special 13 with copy := true }, [9]) :=
  ⟨⟨by norm_num, by norm_num [c8It, c8Program, LineIterator.new]⟩,
   line_special_opcode.1 c8It 13 [9] (by norm_num)
     (by norm_num [c8It, c8Program, LineIterator.new])⟩

/-- A line program whose opcode stream sets the file register to the
out-of-range index 5 and emits. -/
def c9P5 : LineProgram :=
  { offset := 0, endian := .little, version := 2, address_size := 4,
    offset_size := 4, address_step := 1, operation_range := 1,
    default_statement := true, line_base := -5, line_range := 14,
    opcode_base := 13,
    standard_opcode_lengths := [0, 1, 1, 1, 1, 0, 0, 0, 1, 0, 0, 1],
    include_directories := [[]],
    files := [{ path := [99], directory := 0, timestamp := 0, length := 0 }],
    data := [4, 5, 1] }

/-- The same program setting the (also out-of-range) index 6. -/
def c9P6 : LineProgram := { c9P5 with data := [4, 6, 1] }

/-- The row emitted by `c9P5`. -/
def c9It5 : LineIterator :=
  { program := c9P5,
    line := { address := 0, operation := 0, file := 5, line := 1,
              column := 0, statement := true, basic_block := false,
              sequence_end := false, prologue_end := false,
              epilogue_begin := false, isa := 0, discriminator := 0 },
    copy := false, data := [] }

/-- The row emitted by `c9P6`. -/
def c9It6 : LineIterator :=
  { c9It5 with program := c9P6, line := { c9It5.line with file := 6 } }

/-- The resolution the claim describes, following the spec's words (for
comparison only): look the current file index up in the program's file list
and fall back to the default entry when it is out of range. -/
def resolveFile (files : List FileEntry) (idx : Nat) : FileEntry :=
  files.getD idx FileEntry.default

/-- C9 (amended): the row's `file` field is the raw u64 index register, not
a resolved FileEntry: (1) DW_LNS_set_file stores the operand into the
register verbatim, with no range check against the file list;
(2) DW_LNE_define_file appends the decoded entry to the program's file list
in order; (3) DW_LNS_copy requests emission with every register unchanged;
(4) on the concrete program the emitted row carries the out-of-range raw
index 5 while the file list has a single entry. -/
theorem line_row_file :
    (∀ (it : LineIterator) (v : Nat) (r : List Nat), v < 128 →
      it.next_opcode (constant.DW_LNS_set_file :: v :: r) =
        .ok ({ it with line := { it.line with file := v } }, r)) ∧
    (∀ (it : LineIterator) (region r junk : List Nat) (fe : FileEntry),
      region.length < 127 →
      FileEntry.read region = .ok (fe, junk) →
      it.next_extended ((region.length + 1) ::
          constant.DW_LNE_define_file :: (region ++ r)) =
        .ok ({ it with program := { it.program with
            files := it.program.files ++ [fe] } }, r)) ∧
    (∀ (it : LineIterator) (r : List Nat),
      it.next_opcode (constant.DW_LNS_copy :: r) =
        .ok ({ it with copy := true }, r)) ∧
    ((LineIterator.new c9P5).next = .ok (some c9It5) ∧
      c9It5.line.file = 5 ∧ c9It5.program.files.length = 1) := by
  refine ⟨fun it v r hv => ?_, fun it region r junk fe hlen hfe => ?_,
    fun it r => ?_, by refine ⟨by rfl, rfl, rfl⟩⟩
  · rw [LineIterator.next_opcode]
    simp only [read_u8]
    rw [okBind]
    dsimp only
    rw [if_neg (by decide), if_neg (by decide), if_neg (by decide),
      if_neg (by decide), if_pos rfl]
    rw [read_u64_single v r hv, okBind]
  · rw [LineIterator.next_extended]
    rw [read_u64_single _ _ (by omega), okBind]
    dsimp only
    rw [if_neg (by simp)]
    rw [show (constant.DW_LNE_define_file :: (region ++ r)).take
        (region.length + 1) =
        constant.DW_LNE_define_file :: region from by
      rw [List.take_succ_cons, List.take_left]]
    rw [show (constant.DW_LNE_define_file :: (region ++ r)).drop
        (region.length + 1) = r from by
      rw [List.drop_succ_cons, List.drop_left]]
    simp only [read_u8]
    rw [okBind]
    dsimp only
    rw [if_neg (by decide), if_neg (by decide), if_neg (by decide),
      if_pos rfl]
    rw [hfe, okBind]
  · rw [LineIterator.next_opcode]
    simp only [read_u8]
    rw [okBind]
    dsimp only
    rw [if_neg (by decide), if_pos rfl]

/-- Counterexample for C9: indices 5 and 6 are both out of range for the
single-entry file list, so the claimed resolution gives the same default
FileEntry for both programs; yet the two emitted rows differ in their `file`
field (5 vs 6) — the row field is the raw index, not the resolved entry. -/
theorem line_row_file_counterexample :
    resolveFile c9P5.files 5 = resolveFile c9P6.files 6 ∧
    (LineIterator.new c9P5).next = .ok (some c9It5) ∧
    (LineIterator.new c9P6).next = .ok (some c9It6) ∧
    c9It5.line.file = 5 ∧ c9It6.line.file = 6 ∧
    c9It5.line.file ≠ c9It6.line.file :=
  ⟨rfl, by rfl, by rfl, rfl, rfl, by decide⟩

/-- Witness for C9: set_file stores 5 verbatim on the concrete interpreter,
and define_file appends the concrete entry (path "a", directory 1,
timestamp 2, length 3). -/
theorem line_row_file_witness :
    ((5 : Nat) < 128 ∧
      (LineIterator.new c9P5).next_opcode [4, 5] =
        .ok ({ LineIterator.new c9P5 with
            line := { (LineIterator.new c9P5).line with file := 5 } },
          [])) ∧
    (([97, 0, 1, 2, 3] : List Nat).length < 127 ∧
      (LineIterator.new c9P5).next_extended
          (6 :: 3 :: ([97, 0, 1, 2, 3] ++ [9])) =
        .ok ({ LineIterator.new c9P5 with
            program := { (LineIterator.new c9P5).program with
              files := (LineIterator.new c9P5).program.files ++
                [{ path := [97], directory := 1, timestamp := 2,
                   length := 3 }] } }, [9])) :=
  ⟨⟨by norm_num, line_row_file.1 (LineIterator.new c9P5) 5 [] (by norm_num)⟩,
   ⟨by norm_num,
    line_row_file.2.1 (LineIterator.new c9P5) [97, 0, 1, 2, 3] [9] []
      { path := [97], directory := 1, timestamp := 2, length := 3 }
      (by norm_num) (by rfl)⟩⟩

end Dwarf
